import Mathlib

/-!
Verification development for the `agno_agent` bridge of the simple_task_mcp
repository (`src/agno_agent/real_mcp_tools.py` and `src/agno_agent/real_agent.py`).

The development shallowly embeds, in Lean:

* the JSON-like value universe exchanged between the Python wrapper, the
  generated Node helper script, and the MCP server (`PyVal`);
* the JSON serializer used on the wire (`JSON.stringify` in the generated
  script, `json.dumps` in Python) and the JSON reader used on both sides
  (`JSON.parse` in the script, `json.loads` in Python), together with a
  round-trip theorem;
* the close handler of the generated Node script (lines 58-76 of
  `real_mcp_tools.py`), which scans the MCP server's stdout line by line;
* the Python function `call_mcp_tool` (lines 16-107), as a function of the
  outcome of its `subprocess.run` call, with explicit tracking of the
  temp-file cleanup effect;
* the seven exposed tool functions (lines 110-615), written in an explicit
  exception monad mirroring Python's raise/except semantics.

Modelling conventions, stated once:

* JSON numbers are modelled as integers (`Int`).  Every numeric literal the
  repository puts on the wire (`id: 1`, `limit`, `offset`, counts, exit
  codes) is an integer; fractional or exponent number syntax is rejected by
  the embedded parser rather than parsed, which only affects inputs no claim
  mentions.
* `PyVal.pyobj` stands for a Python object that `json.dumps` cannot
  serialize; it witnesses serialization failures and never appears in parsed
  data.
* Machine-level concerns (UTF-8 byte encoding, float precision of JS
  numbers) are outside the embedding; all string reasoning is at the level
  of Unicode scalar values, which both `str` (Python) and the JSON grammar
  index by.
-/

namespace SimpleTaskMcp

/-- Values exchanged as JSON between the Python wrapper, the generated Node
script and the MCP server.  `obj` carries its key/value pairs in insertion
order, matching both Python `dict` and JS object semantics; parsers
deduplicate keys (last value wins, first position kept) so parsed objects
always have pairwise distinct keys. -/
inductive PyVal where
  | null
  | bool (b : Bool)
  | num (n : Int)
  | str (s : String)
  | arr (xs : List PyVal)
  | obj (kvs : List (String × PyVal))
  | pyobj (oid : Nat)
deriving Repr

mutual

def pyDecEq : (a b : PyVal) → Decidable (a = b)
  | .null, .null => isTrue rfl
  | .bool a, .bool b =>
      if h : a = b then isTrue (by rw [h]) else isFalse (fun e => h (PyVal.bool.inj e))
  | .num a, .num b =>
      if h : a = b then isTrue (by rw [h]) else isFalse (fun e => h (PyVal.num.inj e))
  | .str a, .str b =>
      if h : a = b then isTrue (by rw [h]) else isFalse (fun e => h (PyVal.str.inj e))
  | .arr xs, .arr ys =>
      match pyDecEqL xs ys with
      | isTrue h => isTrue (by rw [h])
      | isFalse h => isFalse (fun e => h (PyVal.arr.inj e))
  | .obj a, .obj b =>
      match pyDecEqK a b with
      | isTrue h => isTrue (by rw [h])
      | isFalse h => isFalse (fun e => h (PyVal.obj.inj e))
  | .pyobj i, .pyobj j =>
      if h : i = j then isTrue (by rw [h]) else isFalse (fun e => h (PyVal.pyobj.inj e))
  | .null, .bool _ => isFalse (fun e => PyVal.noConfusion e)
  | .null, .num _ => isFalse (fun e => PyVal.noConfusion e)
  | .null, .str _ => isFalse (fun e => PyVal.noConfusion e)
  | .null, .arr _ => isFalse (fun e => PyVal.noConfusion e)
  | .null, .obj _ => isFalse (fun e => PyVal.noConfusion e)
  | .null, .pyobj _ => isFalse (fun e => PyVal.noConfusion e)
  | .bool _, .null => isFalse (fun e => PyVal.noConfusion e)
  | .bool _, .num _ => isFalse (fun e => PyVal.noConfusion e)
  | .bool _, .str _ => isFalse (fun e => PyVal.noConfusion e)
  | .bool _, .arr _ => isFalse (fun e => PyVal.noConfusion e)
  | .bool _, .obj _ => isFalse (fun e => PyVal.noConfusion e)
  | .bool _, .pyobj _ => isFalse (fun e => PyVal.noConfusion e)
  | .num _, .null => isFalse (fun e => PyVal.noConfusion e)
  | .num _, .bool _ => isFalse (fun e => PyVal.noConfusion e)
  | .num _, .str _ => isFalse (fun e => PyVal.noConfusion e)
  | .num _, .arr _ => isFalse (fun e => PyVal.noConfusion e)
  | .num _, .obj _ => isFalse (fun e => PyVal.noConfusion e)
  | .num _, .pyobj _ => isFalse (fun e => PyVal.noConfusion e)
  | .str _, .null => isFalse (fun e => PyVal.noConfusion e)
  | .str _, .bool _ => isFalse (fun e => PyVal.noConfusion e)
  | .str _, .num _ => isFalse (fun e => PyVal.noConfusion e)
  | .str _, .arr _ => isFalse (fun e => PyVal.noConfusion e)
  | .str _, .obj _ => isFalse (fun e => PyVal.noConfusion e)
  | .str _, .pyobj _ => isFalse (fun e => PyVal.noConfusion e)
  | .arr _, .null => isFalse (fun e => PyVal.noConfusion e)
  | .arr _, .bool _ => isFalse (fun e => PyVal.noConfusion e)
  | .arr _, .num _ => isFalse (fun e => PyVal.noConfusion e)
  | .arr _, .str _ => isFalse (fun e => PyVal.noConfusion e)
  | .arr _, .obj _ => isFalse (fun e => PyVal.noConfusion e)
  | .arr _, .pyobj _ => isFalse (fun e => PyVal.noConfusion e)
  | .obj _, .null => isFalse (fun e => PyVal.noConfusion e)
  | .obj _, .bool _ => isFalse (fun e => PyVal.noConfusion e)
  | .obj _, .num _ => isFalse (fun e => PyVal.noConfusion e)
  | .obj _, .str _ => isFalse (fun e => PyVal.noConfusion e)
  | .obj _, .arr _ => isFalse (fun e => PyVal.noConfusion e)
  | .obj _, .pyobj _ => isFalse (fun e => PyVal.noConfusion e)
  | .pyobj _, .null => isFalse (fun e => PyVal.noConfusion e)
  | .pyobj _, .bool _ => isFalse (fun e => PyVal.noConfusion e)
  | .pyobj _, .num _ => isFalse (fun e => PyVal.noConfusion e)
  | .pyobj _, .str _ => isFalse (fun e => PyVal.noConfusion e)
  | .pyobj _, .arr _ => isFalse (fun e => PyVal.noConfusion e)
  | .pyobj _, .obj _ => isFalse (fun e => PyVal.noConfusion e)

def pyDecEqL : (xs ys : List PyVal) → Decidable (xs = ys)
  | [], [] => isTrue rfl
  | x :: xs, y :: ys =>
      match pyDecEq x y with
      | isTrue h1 =>
        match pyDecEqL xs ys with
        | isTrue h2 => isTrue (by rw [h1, h2])
        | isFalse h2 => isFalse (fun e => h2 (List.cons.inj e).2)
      | isFalse h1 => isFalse (fun e => h1 (List.cons.inj e).1)
  | [], _ :: _ => isFalse (fun e => List.noConfusion e)
  | _ :: _, [] => isFalse (fun e => List.noConfusion e)

def pyDecEqK : (xs ys : List (String × PyVal)) → Decidable (xs = ys)
  | [], [] => isTrue rfl
  | (k, v) :: xs, (l, w) :: ys =>
      if hk : k = l then
        match pyDecEq v w with
        | isTrue h1 =>
          match pyDecEqK xs ys with
          | isTrue h2 => isTrue (by rw [hk, h1, h2])
          | isFalse h2 => isFalse (fun e => h2 (List.cons.inj e).2)
        | isFalse h1 => isFalse (fun e => h1 (congrArg Prod.snd (List.cons.inj e).1))
      else isFalse (fun e => hk (congrArg Prod.fst (List.cons.inj e).1))
  | [], _ :: _ => isFalse (fun e => List.noConfusion e)
  | _ :: _, [] => isFalse (fun e => List.noConfusion e)

end

instance : DecidableEq PyVal := pyDecEq

instance {ε α : Type} [DecidableEq ε] [DecidableEq α] : DecidableEq (Except ε α) :=
  fun a b =>
    match a, b with
    | .ok x, .ok y =>
      if h : x = y then isTrue (by rw [h])
      else isFalse (fun e => h (Except.ok.inj e))
    | .error x, .error y =>
      if h : x = y then isTrue (by rw [h])
      else isFalse (fun e => h (Except.error.inj e))
    | .ok _, .error _ => isFalse (fun e => Except.noConfusion e)
    | .error _, .ok _ => isFalse (fun e => Except.noConfusion e)

/-- Keys of an association list. -/
def keysOf (kvs : List (String × PyVal)) : List String := kvs.map Prod.fst

/-- True when a list of keys is duplicate-free. -/
def dupFree : List String → Bool
  | [] => true
  | k :: ks => (!ks.contains k) && dupFree ks

mutual

/-- Well-formed values: JSON-serializable (no opaque Python object) and with
duplicate-free object keys at every level.  Parsed values and every literal
dictionary the repository builds are well-formed. -/
def wfV : PyVal → Bool
  | .null => true
  | .bool _ => true
  | .num _ => true
  | .str _ => true
  | .arr xs => wfL xs
  | .obj kvs => dupFree (keysOf kvs) && wfK kvs
  | .pyobj _ => false

def wfL : List PyVal → Bool
  | [] => true
  | x :: xs => wfV x && wfL xs

def wfK : List (String × PyVal) → Bool
  | [] => true
  | (_, v) :: kvs => wfV v && wfK kvs

end

/-- JSON-serializability as `json.dumps` checks it: no opaque Python object
anywhere in the value.  (`json.dumps` accepts duplicate-key association
lists trivially, since Python dicts cannot hold duplicates; the repository
only serializes dict literals with distinct keys, so `wfV` is used as the
serializability condition throughout.) -/
def Serializable (v : PyVal) : Prop := wfV v = true

instance (v : PyVal) : Decidable (Serializable v) := by
  unfold Serializable; infer_instance

mutual

/-- Size measure used as a recursion budget for the JSON parser. -/
def jsizeV : PyVal → Nat
  | .null => 1
  | .bool _ => 1
  | .num _ => 1
  | .str _ => 1
  | .arr xs => 2 + jsizeL xs
  | .obj kvs => 2 + jsizeK kvs
  | .pyobj _ => 1

def jsizeL : List PyVal → Nat
  | [] => 0
  | x :: xs => 1 + jsizeV x + jsizeL xs

def jsizeK : List (String × PyVal) → Nat
  | [] => 0
  | (_, v) :: kvs => 1 + jsizeV v + jsizeK kvs

end

/-- Lower-case hexadecimal digit, as emitted by `JSON.stringify` in
`\u00XX` escapes. -/
def hexChar : Nat → Char
  | 0 => '0'
  | 1 => '1'
  | 2 => '2'
  | 3 => '3'
  | 4 => '4'
  | 5 => '5'
  | 6 => '6'
  | 7 => '7'
  | 8 => '8'
  | 9 => '9'
  | 10 => 'a'
  | 11 => 'b'
  | 12 => 'c'
  | 13 => 'd'
  | 14 => 'e'
  | _ => 'f'

/-- JSON string escaping of one character, following `JSON.stringify`:
quote and backslash are escaped, the five short control escapes are used
where they exist, any other control character becomes `\u00XX`, and every
other character is emitted literally. -/
def escChar (c : Char) : List Char :=
  if c = '"' then ['\\', '"']
  else if c = '\\' then ['\\', '\\']
  else if c = '\x08' then ['\\', 'b']
  else if c = '\x09' then ['\\', 't']
  else if c = '\x0a' then ['\\', 'n']
  else if c = '\x0c' then ['\\', 'f']
  else if c = '\x0d' then ['\\', 'r']
  else if c.toNat < 32 then ['\\', 'u', '0', '0', hexChar (c.toNat / 16), hexChar (c.toNat % 16)]
  else [c]

/-- JSON string escaping of a character list. -/
def escStr : List Char → List Char
  | [] => []
  | c :: cs => escChar c ++ escStr cs

/-- Decimal digit character for a value below ten. -/
def digitChar10 (n : Nat) : Char :=
  if n = 0 then '0' else if n = 1 then '1' else if n = 2 then '2'
  else if n = 3 then '3' else if n = 4 then '4' else if n = 5 then '5'
  else if n = 6 then '6' else if n = 7 then '7' else if n = 8 then '8'
  else '9'

/-- Decimal digit characters of a natural number, most significant first,
with an explicit recursion budget (any budget above the value is enough). -/
def natDigitsAux : Nat → Nat → List Char
  | 0, _ => []
  | fuel + 1, n =>
    if n < 10 then [digitChar10 n]
    else natDigitsAux fuel (n / 10) ++ [digitChar10 (n % 10)]

/-- Decimal digit characters of a natural number, most significant first
and without leading zeros. -/
def natDigits (n : Nat) : List Char := natDigitsAux (n + 1) n

/-- Decimal character rendering of an integer, as both `JSON.stringify` and
`json.dumps` print integral numbers. -/
def intChars (n : Int) : List Char :=
  if n < 0 then '-' :: natDigits (-n).toNat else natDigits n.toNat

mutual

/-- Compact JSON serialization of a value, as produced by
`JSON.stringify(v)` in the generated Node script.  (`json.dumps` in Python
differs only by a space after item and key separators and by `\uXXXX`
escaping of non-ASCII characters, neither of which any claim observes: the
`json.dumps` output is only ever evaluated as a JS expression inside the
generated script, which yields the same structural value.)  The `pyobj`
case is unreachable from serializable values and is mapped to `null`. -/
def stringifyV : PyVal → List Char
  | .null => "null".data
  | .bool true => "true".data
  | .bool false => "false".data
  | .num n => intChars n
  | .str s => '"' :: escStr s.data ++ ['"']
  | .arr xs => '[' :: stringifyL xs ++ [']']
  | .obj kvs => '\x7b' :: stringifyK kvs ++ ['\x7d']
  | .pyobj _ => "null".data

def stringifyL : List PyVal → List Char
  | [] => []
  | [x] => stringifyV x
  | x :: y :: xs => stringifyV x ++ ',' :: stringifyL (y :: xs)

def stringifyK : List (String × PyVal) → List Char
  | [] => []
  | [(k, v)] => '"' :: escStr k.data ++ '"' :: ':' :: stringifyV v
  | (k, v) :: p :: kvs =>
      '"' :: escStr k.data ++ '"' :: ':' :: stringifyV v ++ ',' :: stringifyK (p :: kvs)

end

/-- Compact JSON serialization, as a string. -/
def stringify (v : PyVal) : String := String.mk (stringifyV v)

/-- JSON whitespace characters (space, tab, line feed, carriage return),
the exact set both `JSON.parse` and `json.loads` skip between tokens. -/
def isWsChar (c : Char) : Bool :=
  c = ' ' || c = '\x09' || c = '\x0a' || c = '\x0d'

/-- Drop leading JSON whitespace. -/
def skipWs : List Char → List Char
  | [] => []
  | c :: cs => if isWsChar c then skipWs cs else c :: cs

/-- Value of one hexadecimal digit character. -/
def hexVal (c : Char) : Option Nat :=
  if c.isDigit then some (c.toNat - 48)
  else if 'a' ≤ c && c ≤ 'f' then some (c.toNat - 87)
  else if 'A' ≤ c && c ≤ 'F' then some (c.toNat - 55)
  else none

/-- Body of a JSON string literal, after the opening quote: returns the
decoded characters and the input following the closing quote.  Raw control
characters are rejected and `\uXXXX` escapes must denote Unicode scalar
values, as in the JSON grammar. -/
def pStr : List Char → Option (List Char × List Char)
  | [] => none
  | c :: cs =>
    if c = '"' then some ([], cs)
    else if c = '\\' then
      match cs with
      | [] => none
      | e :: cs1 =>
        if e = '"' then (pStr cs1).map (fun r => ('"' :: r.1, r.2))
        else if e = '\\' then (pStr cs1).map (fun r => ('\\' :: r.1, r.2))
        else if e = '/' then (pStr cs1).map (fun r => ('/' :: r.1, r.2))
        else if e = 'b' then (pStr cs1).map (fun r => ('\x08' :: r.1, r.2))
        else if e = 't' then (pStr cs1).map (fun r => ('\x09' :: r.1, r.2))
        else if e = 'n' then (pStr cs1).map (fun r => ('\x0a' :: r.1, r.2))
        else if e = 'f' then (pStr cs1).map (fun r => ('\x0c' :: r.1, r.2))
        else if e = 'r' then (pStr cs1).map (fun r => ('\x0d' :: r.1, r.2))
        else if e = 'u' then
          match cs1 with
          | h1 :: h2 :: h3 :: h4 :: cs2 =>
            match hexVal h1, hexVal h2, hexVal h3, hexVal h4 with
            | some a, some b, some c3, some d =>
              let n := ((a * 16 + b) * 16 + c3) * 16 + d
              if n.isValidChar then
                (pStr cs2).map (fun r => (Char.ofNat n :: r.1, r.2))
              else none
            | _, _, _, _ => none
          | _ => none
        else none
    else if c.toNat < 32 then none
    else (pStr cs).map (fun r => (c :: r.1, r.2))

/-- Greedy run of decimal digit characters. -/
def pDigits : List Char → List Char × List Char
  | [] => ([], [])
  | c :: cs =>
    if c.isDigit then
      let r := pDigits cs
      (c :: r.1, r.2)
    else ([], c :: cs)

/-- Numeric value of a digit-character run. -/
def digitsToNat (ds : List Char) : Nat :=
  ds.foldl (fun a c => a * 10 + (c.toNat - 48)) 0

/-- True when the input does not continue a number token.  The embedded
parser rejects fractional and exponent syntax (it only models the integral
numbers this repository puts on the wire), so a digit, a decimal point or
an exponent marker after the digit run fails the parse. -/
def numDelimOk : List Char → Bool
  | [] => true
  | c :: _ => !(c.isDigit || c = '.' || c = 'e' || c = 'E')

/-- Integer number token.  Accepts an optional minus sign followed by a
digit run (a superset of JSON, which forbids leading zeros; the values this
development serializes never carry leading zeros, so the difference is
unobservable here). -/
def pInt (input : List Char) : Option (Int × List Char) :=
  match input with
  | [] => none
  | c :: rest =>
    if c = '-' then
      match pDigits rest with
      | ([], _) => none
      | (ds, r) => if numDelimOk r then some (-(digitsToNat ds : Int), r) else none
    else
      match pDigits (c :: rest) with
      | ([], _) => none
      | (ds, r) => if numDelimOk r then some ((digitsToNat ds : Int), r) else none

/-- First character of a number token. -/
def numStart (c : Char) : Bool := c = '-' || c.isDigit

/-- Match a literal character sequence. -/
def expectChars : List Char → List Char → Option (List Char)
  | [], input => some input
  | e :: es, c :: cs => if c = e then expectChars es cs else none
  | _ :: _, [] => none

/-- Dictionary assignment `d[k] = v` on an insertion-ordered association
list: an existing key keeps its position and gets the new value, a new key
is appended.  This is how Python dicts and JS objects are built. -/
def setKey : List (String × PyVal) → String → PyVal → List (String × PyVal)
  | [], k, v => [(k, v)]
  | (l, w) :: rest, k, v =>
    if l = k then (l, v) :: rest else (l, w) :: setKey rest k v

/-- Build an object from parsed members by sequential dictionary
assignment, as `JSON.parse` and `json.loads` do: the first occurrence of a
key keeps its position, the last occurrence supplies the value. -/
def dedupK (kvs : List (String × PyVal)) : List (String × PyVal) :=
  kvs.foldl (fun acc p => setKey acc p.1 p.2) []

mutual

/-- JSON value parser with an explicit recursion budget.  Faithful to the
grammar shared by `JSON.parse` and `json.loads`, except that numbers are
restricted to integers (see `pInt`). -/
def pVal : Nat → List Char → Option (PyVal × List Char)
  | 0, _ => none
  | fuel + 1, input =>
    match skipWs input with
    | [] => none
    | c :: cs =>
      if c = '"' then (pStr cs).map (fun r => (.str (String.mk r.1), r.2))
      else if c = '\x7b' then pObjBody fuel cs
      else if c = '[' then pArrBody fuel cs
      else if c = 't' then (expectChars ['r', 'u', 'e'] cs).map (fun r => (.bool true, r))
      else if c = 'f' then (expectChars ['a', 'l', 's', 'e'] cs).map (fun r => (.bool false, r))
      else if c = 'n' then (expectChars ['u', 'l', 'l'] cs).map (fun r => (.null, r))
      else if numStart c then (pInt (c :: cs)).map (fun r => (.num r.1, r.2))
      else none

/-- Array body, after the opening bracket. -/
def pArrBody : Nat → List Char → Option (PyVal × List Char)
  | 0, _ => none
  | fuel + 1, input =>
    match skipWs input with
    | [] => none
    | c :: rest =>
      if c = ']' then some (.arr [], rest)
      else (pElems fuel (c :: rest)).map (fun r => (.arr r.1, r.2))

/-- One or more comma-separated array elements followed by the closing
bracket. -/
def pElems : Nat → List Char → Option (List PyVal × List Char)
  | 0, _ => none
  | fuel + 1, input =>
    (pVal fuel input).bind (fun vr =>
      match skipWs vr.2 with
      | ',' :: r2 => (pElems fuel r2).map (fun er => (vr.1 :: er.1, er.2))
      | ']' :: r2 => some ([vr.1], r2)
      | _ => none)

/-- Object body, after the opening brace. -/
def pObjBody : Nat → List Char → Option (PyVal × List Char)
  | 0, _ => none
  | fuel + 1, input =>
    match skipWs input with
    | [] => none
    | c :: rest =>
      if c = '\x7d' then some (.obj [], rest)
      else (pMembers fuel (c :: rest)).map (fun r => (.obj (dedupK r.1), r.2))

/-- One or more comma-separated object members followed by the closing
brace. -/
def pMembers : Nat → List Char → Option (List (String × PyVal) × List Char)
  | 0, _ => none
  | fuel + 1, input =>
    match skipWs input with
    | '"' :: cs =>
      (pStr cs).bind (fun kr =>
        match skipWs kr.2 with
        | ':' :: r2 =>
          (pVal fuel r2).bind (fun vr =>
            match skipWs vr.2 with
            | ',' :: r4 => (pMembers fuel r4).map (fun mr => ((String.mk kr.1, vr.1) :: mr.1, mr.2))
            | '\x7d' :: r4 => some ([(String.mk kr.1, vr.1)], r4)
            | _ => none)
        | _ => none)
    | _ => none

end

/-- The JSON reader shared by `json.loads` (Python side) and `JSON.parse`
(in the generated Node script): parse one value, allow surrounding
whitespace, reject trailing garbage.  The budget `3 * length + 3` exceeds
the recursion depth any input can reach, since each nesting level consumes
at least one character for every three budget steps. -/
def json_loads (s : String) : Option PyVal :=
  match pVal (3 * s.length + 3) s.data with
  | some (v, rest) => if skipWs rest = [] then some v else none
  | none => none

/-- Decimal string of a natural number. -/
def natStr (n : Nat) : String := String.mk (natDigits n)

/-- Decimal string of an integer, as Python's `str` prints `int`. -/
def intStr (n : Int) : String := String.mk (intChars n)

/-- Exceptions the embedded Python code can raise.  Only the exception
class matters to control flow (`except json.JSONDecodeError` versus the
catch-all `except Exception`); the carried message is rendered by `str(e)`
in the handlers.  Message texts follow CPython where they are cheap to
reproduce and are abbreviations otherwise; no claim observes a message the
repository can actually reach that is not reproduced exactly. -/
inductive PyExc where
  | typeError (msg : String)
  | attrError (msg : String)
  | keyError (k : String)
  | indexError (msg : String)
  | zeroDivision
deriving Repr, DecidableEq

/-- Rendering `str(e)` of a caught exception, as the `except` handlers
interpolate it.  `str` of a `KeyError` shows the `repr` of the key. -/
def pyExcStr : PyExc → String
  | .typeError m => m
  | .attrError m => m
  | .keyError k => "\x27" ++ k ++ "\x27"
  | .indexError m => m
  | .zeroDivision => "division by zero"

/-- Python type name of a value, used in exception messages. -/
def typeName : PyVal → String
  | .null => "NoneType"
  | .bool _ => "bool"
  | .num _ => "int"
  | .str _ => "str"
  | .arr _ => "list"
  | .obj _ => "dict"
  | .pyobj _ => "object"

/-- Embedding of `json.dumps` as the repository uses it (line 42 of
`real_mcp_tools.py`): succeeds exactly on serializable values; a
non-serializable object raises `TypeError`.  The produced text is only ever
evaluated as a JS expression inside the generated script, so the compact
serialization stands in for `json.dumps`'s output (they denote the same
structural value). -/
def json_dumps (v : PyVal) : Except PyExc String :=
  if wfV v then .ok (stringify v)
  else .error (.typeError "Object of type object is not JSON serializable")

/-- First binding of a key in a (deduplicated) association list. -/
def lookupKey : List (String × PyVal) → String → Option PyVal
  | [], _ => none
  | (k, v) :: rest, key => if k = key then some v else lookupKey rest key

/-- JS truthiness, as tested by `if (parsed.result)` in the generated
script: `null`, `false`, `0` and the empty string are falsy; every object
and array (even empty ones) is truthy. -/
def jsTruthy : PyVal → Bool
  | .null => false
  | .bool b => b
  | .num n => decide (n ≠ 0)
  | .str s => decide (s ≠ "")
  | .arr _ => true
  | .obj _ => true
  | .pyobj _ => true

/-- Python truthiness, as tested by `if items:`/`if not assigned:` and the
`x or y` idiom: empty containers and the empty string are falsy, unlike in
JS. -/
def pyTruthy : PyVal → Bool
  | .null => false
  | .bool b => b
  | .num n => decide (n ≠ 0)
  | .str s => decide (s ≠ "")
  | .arr xs => !xs.isEmpty
  | .obj kvs => !kvs.isEmpty
  | .pyobj _ => true

/-- Python `==` between a `str` and an arbitrary value: only equal strings
compare equal, and the comparison never raises. -/
def pyEqStr (s : String) (v : PyVal) : Bool :=
  match v with
  | .str t => s == t
  | _ => false

/-- Python `==` between dictionary keys.  Containers are unhashable and so
never occur as dictionary keys here; among the remaining values, `bool`
and `int` compare numerically (`True == 1`), everything else compares equal
only within its own type. -/
def keyEqB : PyVal → PyVal → Bool
  | .null, .null => true
  | .bool a, .bool b => a == b
  | .bool a, .num m => (if a then (1 : Int) else 0) == m
  | .num n, .bool b => n == (if b then (1 : Int) else 0)
  | .num n, .num m => n == m
  | .str s, .str t => s == t
  | _, _ => false

/-- Hashability: lists and dicts cannot be dictionary keys. -/
def hashableB : PyVal → Bool
  | .arr _ => false
  | .obj _ => false
  | _ => true

/-- Does the pattern occur at the head of the list. -/
def headMatches : List Char → List Char → Bool
  | [], _ => true
  | _ :: _, [] => false
  | p :: ps, c :: cs => p == c && headMatches ps cs

/-- Substring occurrence on character lists. -/
def containsL (pat : List Char) : List Char → Bool
  | [] => pat.isEmpty
  | c :: cs => headMatches pat (c :: cs) || containsL pat cs

/-- Python `pat in s` on strings: substring test. -/
def strContains (s pat : String) : Bool := containsL pat.data s.data

mutual

/-- Python `repr` of a value, ASCII-level: used when containers are
interpolated into f-strings.  String quoting is simplified to plain single
quotes (Python additionally escapes special characters and may switch the
quote character); no claim observes a rendered container with such
content. -/
def pyReprV : PyVal → String
  | .null => "None"
  | .bool true => "True"
  | .bool false => "False"
  | .num n => intStr n
  | .str s => "\x27" ++ s ++ "\x27"
  | .arr xs => "[" ++ pyReprL xs ++ "]"
  | .obj kvs => "\x7b" ++ pyReprK kvs ++ "\x7d"
  | .pyobj oid => "<object object at " ++ natStr oid ++ ">"

def pyReprL : List PyVal → String
  | [] => ""
  | [x] => pyReprV x
  | x :: y :: xs => pyReprV x ++ ", " ++ pyReprL (y :: xs)

def pyReprK : List (String × PyVal) → String
  | [] => ""
  | [(k, v)] => "\x27" ++ k ++ "\x27: " ++ pyReprV v
  | (k, v) :: p :: kvs => "\x27" ++ k ++ "\x27: " ++ pyReprV v ++ ", " ++ pyReprK (p :: kvs)

end

/-- Python `str` of a value, as f-strings interpolate it: a `str` renders
as its raw content, everything else as its `repr`. -/
def pyStrV : PyVal → String
  | .str s => s
  | v => pyReprV v

/-- Python `len`. -/
def pyLen : PyVal → Except PyExc Nat
  | .str s => .ok s.length
  | .arr xs => .ok xs.length
  | .obj kvs => .ok kvs.length
  | v => .error (.typeError ("object of type " ++ "\x27" ++ typeName v ++ "\x27" ++ " has no len()"))

/-- Python subscription `d[k]` with a string key. -/
def pyGetItem (d : PyVal) (k : String) : Except PyExc PyVal :=
  match d with
  | .obj kvs =>
    match lookupKey kvs k with
    | some v => .ok v
    | none => .error (.keyError k)
  | .arr _ => .error (.typeError "list indices must be integers or slices, not str")
  | .str _ => .error (.typeError "string indices must be integers")
  | v => .error (.typeError ("\x27" ++ typeName v ++ "\x27" ++ " object is not subscriptable"))

/-- Python subscription `v[0]`. -/
def pyIndex0 (v : PyVal) : Except PyExc PyVal :=
  match v with
  | .arr (x :: _) => .ok x
  | .arr [] => .error (.indexError "list index out of range")
  | .str s =>
    match s.data with
    | c :: _ => .ok (.str (String.mk [c]))
    | [] => .error (.indexError "string index out of range")
  | .obj kvs =>
    match lookupKey kvs "0" with
    | some w => .ok w
    | none => .error (.keyError "0")
  | w => .error (.typeError ("\x27" ++ typeName w ++ "\x27" ++ " object is not subscriptable"))

/-- Python `d.get(k, default)`, with the default evaluated (left to right)
before the lookup; calling `.get` on a non-dict raises `AttributeError`. -/
def pyGetD (d : PyVal) (k : String) (defaultM : Except PyExc PyVal) : Except PyExc PyVal :=
  match d with
  | .obj kvs => do
    let df ← defaultM
    pure ((lookupKey kvs k).getD df)
  | v => .error (.attrError ("\x27" ++ typeName v ++ "\x27" ++ " object has no attribute \x27get\x27"))

/-- Python `d.get(k, default)` with a pure default. -/
def pyGet (d : PyVal) (k : String) (df : PyVal) : Except PyExc PyVal :=
  pyGetD d k (pure df)

/-- Python `x in v` with a string left operand: key membership on dicts,
element membership on lists, substring test on strings, `TypeError`
otherwise. -/
def pyInStr (s : String) (v : PyVal) : Except PyExc Bool :=
  match v with
  | .obj kvs => .ok (kvs.any (fun p => p.1 == s))
  | .arr xs => .ok (xs.any (fun x => pyEqStr s x))
  | .str t => .ok (strContains t s)
  | w => .error (.typeError ("argument of type " ++ "\x27" ++ typeName w ++ "\x27" ++ " is not iterable"))

/-- Python `for x in v`: lists yield elements, dicts their keys, strings
their characters; everything else raises `TypeError`. -/
def pyIter (v : PyVal) : Except PyExc (List PyVal) :=
  match v with
  | .arr xs => .ok xs
  | .obj kvs => .ok (kvs.map (fun p => .str p.1))
  | .str s => .ok (s.data.map (fun c => .str (String.mk [c])))
  | w => .error (.typeError ("\x27" ++ typeName w ++ "\x27" ++ " object is not iterable"))

/-- Python slicing `v[:n]` with a nonnegative bound. -/
def pySlice (v : PyVal) (n : Nat) : Except PyExc PyVal :=
  match v with
  | .str s => .ok (.str (String.mk (s.data.take n)))
  | .arr xs => .ok (.arr (xs.take n))
  | w => .error (.typeError ("\x27" ++ typeName w ++ "\x27" ++ " object is not subscriptable"))

/-- Python whitespace stripped by `str.strip()` (ASCII subset). -/
def isPySpace (c : Char) : Bool :=
  c = ' ' || c = '\x09' || c = '\x0a' || c = '\x0d' || c = '\x0b' || c = '\x0c'

/-- Python `str.strip()` on the attribute-checked string. -/
def pyStripStr (s : String) : String :=
  String.mk (((s.data.dropWhile isPySpace).reverse.dropWhile isPySpace).reverse)

/-- Python `.strip()`: `AttributeError` on non-strings. -/
def pyStrip (v : PyVal) : Except PyExc String :=
  match v with
  | .str s => .ok (pyStripStr s)
  | w => .error (.attrError ("\x27" ++ typeName w ++ "\x27" ++ " object has no attribute \x27strip\x27"))

/-- Python `str.title()` (ASCII letters): the first letter of every
alphabetic run is uppercased, the rest lowercased. -/
def titleChars : Bool → List Char → List Char
  | _, [] => []
  | prev, c :: cs =>
    if c.isAlpha then (if prev then c.toLower else c.toUpper) :: titleChars true cs
    else c :: titleChars false cs

/-- Python `str.title()`. -/
def pyTitleStr (s : String) : String := String.mk (titleChars false s.data)

/-- Python `.title()`: `AttributeError` on non-strings. -/
def pyTitle (v : PyVal) : Except PyExc String :=
  match v with
  | .str s => .ok (pyTitleStr s)
  | w => .error (.attrError ("\x27" ++ typeName w ++ "\x27" ++ " object has no attribute \x27title\x27"))

/-- Single-character `str.replace`, as `status.replace('_', ' ')` uses it. -/
def replaceChar (s : String) (a b : Char) : String :=
  String.mk (s.data.map (fun c => if c = a then b else c))

/-- Python `.replace('_', ' ').title()` chain on a value of unknown type:
`AttributeError` when the value is not a string. -/
def pyReplaceTitle (v : PyVal) : Except PyExc String :=
  match v with
  | .str s => .ok (pyTitleStr (replaceChar s '_' ' '))
  | w => .error (.attrError ("\x27" ++ typeName w ++ "\x27" ++ " object has no attribute \x27replace\x27"))

/-- Python `member.split('@')[0]`: the first `@`-separated segment. -/
def splitAtSign (s : String) : String :=
  String.mk (s.data.takeWhile (fun c => c ≠ '@'))

/-- One-based enumeration, as `enumerate(items, 1)`. -/
def enumFrom (n : Nat) : List PyVal → List (Nat × PyVal)
  | [] => []
  | x :: xs => (n, x) :: enumFrom (n + 1) xs

/-- Round half to even, the rounding of Python's float formatting, applied
to the exact quotient `a / b` (requires `b > 0`; returns 0 otherwise). -/
def rheDiv (a b : Nat) : Nat :=
  if b = 0 then 0
  else
    let q := a / b
    let r := a % b
    if 2 * r < b then q
    else if 2 * r > b then q + 1
    else if q % 2 = 0 then q else q + 1

/-- Rendering of a percentage held in tenths, as `f"\x7bp:.1f\x7d"` formats
it.  (Python formats the binary float `count / len * 100`; its rounding can
differ from exact rational rounding in borderline cases no claim
observes.) -/
def fmtTenths (t : Nat) : String :=
  natStr (t / 10) ++ "." ++ String.mk [digitChar10 (t % 10)]

/-- The percentage expression of `get_simple_task_overview` (lines 191 and
200): `(count / len(items)) * 100 if items else 0`, held in tenths of a
percent.  `len(items)` raises `TypeError` on non-sized values, and the
division raises `ZeroDivisionError` when `len(items)` is zero — which the
`if items` guard makes unreachable, since a truthy sized value has a
positive length. -/
def overviewPct (items : PyVal) (count : Nat) : Except PyExc Nat :=
  if pyTruthy items then do
    let n ← pyLen items
    if n = 0 then .error .zeroDivision
    else .ok (rheDiv (count * 1000) n)
  else .ok 0

/-- The percentage expression of `analyze_team_workload` (line 453):
`(unassigned_count / total_tasks) * 100`, held in tenths of a percent. -/
def workloadPct (unassigned total : Nat) : Except PyExc Nat :=
  if total = 0 then .error .zeroDivision
  else .ok (rheDiv (unassigned * 1000) total)

/-- Monadic stable insertion: the new element goes before the first element
it compares strictly less than, hence after every element equal to it. -/
def insertLtM (lt : PyVal × Nat → PyVal × Nat → Except PyExc Bool) (x : PyVal × Nat) :
    List (PyVal × Nat) → Except PyExc (List (PyVal × Nat))
  | [] => .ok [x]
  | y :: ys => do
    if (← lt x y) then .ok (x :: y :: ys)
    else do
      let tl ← insertLtM lt x ys
      .ok (y :: tl)

/-- Python `sorted` over count-dictionary items, modelled as a stable
insertion sort (each element is inserted after the elements already placed
that do not compare greater, so original order is kept among equals, as
Python guarantees).  Python's Timsort performs a different sequence of
comparator calls; the difference is observable only through which
`TypeError` surfaces first for mixed-type keys, and every claim treats all
`TypeError`s alike. -/
def sortPairsM (lt : PyVal × Nat → PyVal × Nat → Except PyExc Bool)
    (l : List (PyVal × Nat)) : Except PyExc (List (PyVal × Nat)) :=
  l.foldlM (fun acc x => insertLtM lt x acc) []

/-- Python `<` between dictionary keys (hashable values): numeric types
compare numerically, strings lexicographically, and any other combination
raises `TypeError`. -/
def pyLtM : PyVal → PyVal → Except PyExc Bool
  | .num a, .num b => .ok (decide (a < b))
  | .bool a, .bool b => .ok (decide ((if a then (1 : Int) else 0) < (if b then 1 else 0)))
  | .bool a, .num b => .ok (decide ((if a then (1 : Int) else 0) < b))
  | .num a, .bool b => .ok (decide (a < (if b then (1 : Int) else 0)))
  | .str s, .str t => .ok (decide (s < t))
  | a, b =>
    .error (.typeError ("\x27<\x27 not supported between instances of " ++ "\x27" ++
      typeName a ++ "\x27 and \x27" ++ typeName b ++ "\x27"))

/-- Tuple comparison for `sorted(counts.items())`: Python compares the
keys with `==` first (never raising) and only calls `<` on unequal keys;
with equal keys the counts decide. -/
def ltPairM (p q : PyVal × Nat) : Except PyExc Bool :=
  if keyEqB p.1 q.1 then .ok (decide (p.2 < q.2)) else pyLtM p.1 q.1

/-- One counting step of `counts[k] = counts.get(k, 0) + 1` on an
insertion-ordered count dictionary; an existing key keeps its position. -/
def incrCount : List (PyVal × Nat) → PyVal → List (PyVal × Nat)
  | [], k => [(k, 1)]
  | (l, c) :: rest, k =>
    if keyEqB l k then (l, c + 1) :: rest else (l, c) :: incrCount rest k

/-- Counting with the hashability check Python performs on the key. -/
def bumpCount (counts : List (PyVal × Nat)) (k : PyVal) : Except PyExc (List (PyVal × Nat)) :=
  if hashableB k then .ok (incrCount counts k)
  else .error (.typeError ("unhashable type: " ++ "\x27" ++ typeName k ++ "\x27"))

/-- First value bound to an equal key in a PyVal-keyed association list. -/
def assocFind {α : Type} (ks : List (PyVal × α)) (k : PyVal) : Option α :=
  match ks with
  | [] => none
  | (l, v) :: rest => if keyEqB l k then some v else assocFind rest k

/-- Append-to-group step of `by_status[status].append(task)` with the
`if status not in by_status: by_status[status] = []` initialisation. -/
def addGroup : List (PyVal × List PyVal) → PyVal → PyVal → List (PyVal × List PyVal)
  | [], k, t => [(k, [t])]
  | (l, ts) :: rest, k, t =>
    if keyEqB l k then (l, ts ++ [t]) :: rest else (l, ts) :: addGroup rest k t

/-- Grouping with the hashability check on the key. -/
def bumpGroup (groups : List (PyVal × List PyVal)) (k t : PyVal) :
    Except PyExc (List (PyVal × List PyVal)) :=
  if hashableB k then .ok (addGroup groups k t)
  else .error (.typeError ("unhashable type: " ++ "\x27" ++ typeName k ++ "\x27"))

/-- Characters removed by JS `String.prototype.trim()` (ASCII white space
plus the two most common non-ASCII ones; further Unicode space code points
never occur in the outputs under consideration). -/
def isJsSpace (c : Char) : Bool :=
  c = ' ' || c = '\x09' || c = '\x0a' || c = '\x0b' || c = '\x0c' || c = '\x0d' ||
  c = '\xa0' || c = '\ufeff'

/-- Split a character list on newline characters (the semantics of JS
`output.split('\n')`): one segment per newline-free run, with empty
segments kept. -/
def splitNl : List Char → List (List Char)
  | [] => [[]]
  | c :: rest =>
    match splitNl rest with
    | [] => [[]]
    | seg :: segs => if c = '\x0a' then [] :: seg :: segs else (c :: seg) :: segs

/-- Line 60 of `real_mcp_tools.py`:
`output.split('\n').filter(line => line.trim())` — split the captured
server stdout on newlines and keep the lines whose trimmed form is
non-empty. -/
def jsLines (output : String) : List String :=
  ((splitNl output.data).map String.mk).filter (fun l => !(l.data.all isJsSpace))

/-- Lines 62-70 of `real_mcp_tools.py`, the per-line step: `JSON.parse` the
line and test `if (parsed.result)`.  A line that fails to parse is skipped
by the inner catch; property access `parsed.result` yields the member on
objects and `undefined` (falsy) on arrays, strings, numbers and booleans,
and throws on `null` — a throw the same inner catch also skips. -/
def lineResult (line : String) : Option PyVal :=
  match json_loads line with
  | some (.obj kvs) =>
    match lookupKey kvs "result" with
    | some r => if jsTruthy r then some r else none
    | none => none
  | _ => none

/-- Whether a line parses as JSON and carries a `result` key at all
(truthy or not) — the condition the specification describes the scan
with. -/
def hasResultKey (line : String) : Bool :=
  match json_loads line with
  | some (.obj kvs) => kvs.any (fun p => p.1 == "result")
  | _ => false

/-- First line that yields a truthy `result`. -/
def firstResult : List String → Option PyVal
  | [] => none
  | l :: ls =>
    match lineResult l with
    | some r => some r
    | none => firstResult ls

/-- The `close` handler of the generated Node script (lines 58-76 of
`real_mcp_tools.py`): the JSON value the script prints to its own stdout.
On the first line with a truthy `result` it prints that result and
returns; otherwise it prints
`\x7b error: 'No valid response found', raw_output: output \x7d`.
The handler ignores the server's exit code entirely.  The outer
`try/catch` of the handler (lines 59 and 73-75) is dead in this model:
none of `split`, `trim` or the guarded `JSON.parse` can throw past the
inner catch. -/
def jsClose (output : String) : PyVal :=
  match firstResult (jsLines output) with
  | some r => r
  | none => .obj [("error", .str "No valid response found"), ("raw_output", .str output)]

/-- Stdout of the node process when the server wrote `output` and the
script ran to its close handler: `console.log(JSON.stringify(x, null, 2))`
prints the chosen value and a final newline.  The 2-space indentation of
`JSON.stringify(x, null, 2)` differs from the compact form only in
inter-token whitespace, which `json.loads` ignores, so the compact form
stands in for it. -/
def nodeStdout (serverOut : String) : String :=
  stringify (jsClose serverOut) ++ "\x0a"

/-- Outcome of the
`subprocess.run(['node', script_path], capture_output=True, text=True, timeout=30)`
call on line 86-91 of `real_mcp_tools.py`: normal completion with an exit
code and captured streams, `subprocess.TimeoutExpired` after 30 seconds, or
any other raised exception (e.g. `FileNotFoundError` when `node` is
missing, or a failure of the temp-file write on lines 81-83). -/
inductive RunOutcome where
  | completed (returncode : Int) (stdout stderr : String)
  | timeoutExpired
  | raised (msg : String)
deriving Repr, DecidableEq

/-- Embedding of `call_mcp_tool` (lines 16-107 of `real_mcp_tools.py`) as a
function of the `subprocess.run` outcome, with the temp-file cleanup made
explicit: the second component records whether `os.unlink(script_path)`
(line 94) executed before the call returned.

Control flow, mirroring the source:
* the f-string building `script_content` (lines 29-77) runs **before** the
  `try:` on line 79, so a `TypeError` from `json.dumps(params)` on line 42
  propagates to the caller (`.error`);
* inside the `try`, the temp file is written, `subprocess.run` executes,
  and `os.unlink` runs only on the path where `subprocess.run` returns
  normally — the `except subprocess.TimeoutExpired` and `except Exception`
  handlers return without ever reaching line 94. -/
def call_mcp_tool_run (_tool_name : String) (params : PyVal) (run : RunOutcome) :
    Except PyExc PyVal × Bool :=
  match json_dumps params with
  | .error e => (.error e, false)
  | .ok _script =>
    match run with
    | .completed code out err =>
      if code = 0 then
        match json_loads out with
        | some v => (.ok v, true)
        | none =>
          (.ok (.obj [("error", .str "Failed to parse MCP response"),
                      ("raw_output", .str out)]), true)
      else
        (.ok (.obj [("error", .str ("MCP call failed: " ++ err)),
                    ("return_code", .num code)]), true)
    | .timeoutExpired => (.ok (.obj [("error", .str "MCP call timed out")]), false)
    | .raised msg => (.ok (.obj [("error", .str ("Unexpected error: " ++ msg))]), false)

/-- The value `call_mcp_tool` returns (or the exception it propagates). -/
def call_mcp_tool (tool_name : String) (params : PyVal) (run : RunOutcome) :
    Except PyExc PyVal :=
  (call_mcp_tool_run tool_name params run).1

/-- Characters of a tool name that survive raw interpolation into the
single-quoted JS literal `name: '...'` on line 41 of the generated script:
a quote, a backslash or a line break makes the generated script invalid
JS. -/
def jsSafeChar (c : Char) : Bool :=
  !(c = '\x27' || c = '\x5c' || c = '\x0a' || c = '\x0d')

/-- Tool names that interpolate into a valid JS string literal denoting
themselves. -/
def jsSafeName (s : String) : Bool := s.data.all jsSafeChar

/-- The request envelope the generated script builds (lines 36-44):
`\x7b jsonrpc: '2.0', id: 1, method: 'tools/call', params: \x7b name, arguments \x7d \x7d`,
with `arguments` carrying the structural value of `json.dumps(params)`
evaluated as a JS expression. -/
def buildRequest (tool_name : String) (args : PyVal) : PyVal :=
  .obj [("jsonrpc", .str "2.0"), ("id", .num 1), ("method", .str "tools/call"),
        ("params", .obj [("name", .str tool_name), ("arguments", args)])]

/-- What the generated script writes to the spawned server's stdin before
closing it (lines 46-47): `JSON.stringify(request) + '\n'`, then
`stdin.end()`.  `none` when nothing is written: either `json.dumps(params)`
raised in Python (so no script ran), or the interpolated tool name made
the script invalid JS, so node exited with a `SyntaxError` before spawning
the server. -/
def childStdin (tool_name : String) (args : PyVal) : Option String :=
  if jsSafeName tool_name && wfV args then
    some (stringify (buildRequest tool_name args) ++ "\x0a")
  else none

/-- The `try: ... except Exception as e: return handler(e)` wrapper every
exposed tool function uses: a raised exception becomes a normally returned
string.  (`BaseException`s such as `KeyboardInterrupt` are outside the
model.) -/
def tryExcept (body : Except PyExc String) (handler : PyExc → String) : Except PyExc String :=
  match body with
  | .ok s => .ok s
  | .error e => .ok (handler e)

/-- The line join every formatter performs: the source reads
`return "\x5c\x5cn".join(overview)`, a Python literal denoting the TWO
characters backslash and `n` — not a newline.  The joined result is
therefore a single physical line with literal `\x5cn` sequences between
the intended lines. -/
def pyJoinLit (lines : List String) : String := String.intercalate "\x5cn" lines

/-- Truthiness of the optional `project_name` argument (`if project_name:`):
`None` and the empty string are falsy. -/
def pnTruthy : Option String → Bool
  | some p => p ≠ ""
  | none => false

/-- The params-dict construction shared by the first three tools: the base
literal, plus `params["project_name"] = project_name` appended when the
argument is truthy. -/
def withProject (base : List (String × PyVal)) (pn : Option String) : PyVal :=
  .obj (if pnTruthy pn then base ++ [("project_name", .str (pn.getD ""))] else base)

/-- Inner per-member counter dictionary of `analyze_team_workload`
(lines 430-437), in insertion order. -/
def initCounters : List (String × Nat) :=
  [("total", 0), ("high", 0), ("blocked", 0), ("in_progress", 0), ("completed", 0), ("todo", 0)]

/-- `counters[k] += 1` (the key is always present in the uses below). -/
def bumpKey : List (String × Nat) → String → List (String × Nat)
  | [], _ => []
  | (l, c) :: rest, k => if l = k then (l, c + 1) :: rest else (l, c) :: bumpKey rest k

/-- `counters[status] += 1` for a status value compared with `==` against
the string keys. -/
def bumpKeyV : List (String × Nat) → PyVal → List (String × Nat)
  | [], _ => []
  | (l, c) :: rest, v =>
    if keyEqB (.str l) v then (l, c + 1) :: rest else (l, c) :: bumpKeyV rest v

/-- `counters[k]` (total, since the fixed keys are always present). -/
def counterGet : List (String × Nat) → String → Nat
  | [], _ => 0
  | (l, c) :: rest, k => if l = k then c else counterGet rest k

/-- `status in counters` after the hashability check. -/
def counterHasKey (cs : List (String × Nat)) (v : PyVal) : Bool :=
  cs.any (fun p => keyEqB (.str p.1) v)

/-- Bump one field of one member's counters in the workload dictionary. -/
def wlBump (wl : List (PyVal × List (String × Nat))) (k : PyVal) (fld : String) :
    List (PyVal × List (String × Nat)) :=
  wl.map (fun p => if keyEqB p.1 k then (p.1, bumpKey p.2 fld) else p)

/-- Bump the counter selected by a status value. -/
def wlBumpV (wl : List (PyVal × List (String × Nat))) (k : PyVal) (stv : PyVal) :
    List (PyVal × List (String × Nat)) :=
  wl.map (fun p => if keyEqB p.1 k then (p.1, bumpKeyV p.2 stv) else p)

/-- Descending stable insertion by total count, placing a new element
before the first strictly smaller entry — the behavior of
`sorted(..., key=lambda x: x[1]["total"], reverse=True)`, which keeps
insertion order among equal totals. -/
def insertDesc (x : PyVal × List (String × Nat)) :
    List (PyVal × List (String × Nat)) → List (PyVal × List (String × Nat))
  | [] => [x]
  | y :: ys =>
    if counterGet y.2 "total" < counterGet x.2 "total" then x :: y :: ys
    else y :: insertDesc x ys

/-- Stable sort of the workload items by descending total. -/
def sortDescByTotal (wl : List (PyVal × List (String × Nat))) :
    List (PyVal × List (String × Nat)) :=
  wl.foldl (fun acc x => insertDesc x acc) []

/-- `json.loads(content)` on a value of unknown type: `TypeError` on
non-strings (which escapes the `except json.JSONDecodeError` handler), a
parse failure is the `JSONDecodeError` case (`none`). -/
def pyJsonLoadsV (v : PyVal) : Except PyExc (Option PyVal) :=
  match v with
  | .str s => .ok (json_loads s)
  | w => .error (.typeError ("the JSON object must be str, bytes or bytearray, not " ++ typeName w))

/-- Body of `switch_project` (lines 110-128 of `real_mcp_tools.py`). -/
def switch_project_body (project_name : String) (run : RunOutcome) : Except PyExc String := do
  let result ← call_mcp_tool "simpletask_switch_project"
    (.obj [("project_identifier", .str project_name)]) run
  let hasErr ← pyInStr "error" result
  if hasErr then do
    let ev ← pyGetItem result "error"
    pure ("Error switching to project: " ++ pyStrV ev)
  else
    pure ("✅ Switched to project: " ++ project_name)

/-- `switch_project` with its catch-all handler. -/
def switch_project (project_name : String) (run : RunOutcome) : Except PyExc String :=
  tryExcept (switch_project_body project_name run)
    (fun e => "Error switching to project: " ++ pyExcStr e)

/-- The status-distribution line of `get_simple_task_overview`
(lines 190-192): the percentage statement runs first, then the f-string
with `status.replace('_', ' ').title()`. -/
def overviewStatusLine (items : PyVal) (st : PyVal) (count : Nat) : Except PyExc String := do
  let pct ← overviewPct items count
  let stS ← pyReplaceTitle st
  pure ("- **" ++ stS ++ "**: " ++ natStr count ++ " (" ++ fmtTenths pct ++ "%)")

/-- The priority-distribution line (lines 199-201), with
`priority.title()`. -/
def overviewPriorityLine (items : PyVal) (pr : PyVal) (count : Nat) : Except PyExc String := do
  let pct ← overviewPct items count
  let prS ← pyTitle pr
  pure ("- **" ++ prS ++ "**: " ++ natStr count ++ " (" ++ fmtTenths pct ++ "%)")

/-- Body of `get_simple_task_overview` (lines 131-217). -/
def get_simple_task_overview_body (pn : Option String) (run : RunOutcome) :
    Except PyExc String := do
  let params := withProject
    [("limit", .num 100), ("offset", .num 0), ("include_full_data", .bool false)] pn
  let summary_data ← call_mcp_tool "simpletask_get_tasks_summary" params run
  let hasErr ← pyInStr "error" summary_data
  if hasErr then do
    let ev ← pyGetItem summary_data "error"
    pure ("Error getting tasks: " ++ pyStrV ev)
  else do
    let hasContent ← pyInStr "content" summary_data
    let contentOk ← if hasContent then do
        let cv ← pyGetItem summary_data "content"
        let n ← pyLen cv
        pure (decide (0 < n))
      else pure false
    if contentOk then do
      let cv ← pyGetItem summary_data "content"
      let c0 ← pyIndex0 cv
      let contentV ← pyGet c0 "text" (.str "")
      match ← pyJsonLoadsV contentV with
      | none => do
        let sl ← pySlice contentV 200
        pure ("Error parsing task data: " ++ pyStrV sl ++ "...")
      | some task_data => do
        let items ← pyGet task_data "items" (.arr [])
        let total ← pyGetD task_data "total_count" (do
          let n ← pyLen items
          pure (.num n))
        let tasks ← pyIter items
        let counts ← tasks.foldlM
          (fun (acc : List (PyVal × Nat) × List (PyVal × Nat)) task => do
            let st ← pyGet task "status" (.str "unknown")
            let pr ← pyGet task "priority" (.str "unknown")
            let sc ← bumpCount acc.1 st
            let pc ← bumpCount acc.2 pr
            pure (sc, pc)) ([], [])
        let head := ["# Simple Task Overview",
                     "**Total Tasks**: " ++ pyStrV total,
                     "**Project**: " ++ (if pnTruthy pn then pn.getD "" else "Default Project"),
                     "**Data Source**: aitistra.com API",
                     "",
                     "## Status Distribution:"]
        let sortedStatus ← sortPairsM ltPairM counts.1
        let statusLines ← sortedStatus.mapM (fun p => overviewStatusLine items p.1 p.2)
        let sortedPriority ← sortPairsM ltPairM counts.2
        let priLines ← sortedPriority.mapM (fun p => overviewPriorityLine items p.1 p.2)
        let hp ← tasks.filterM (fun t => do
          let p ← pyGet t "priority" .null
          pure (pyEqStr "high" p))
        let hp := hp.take 5
        let hpSection ← if hp.isEmpty then pure ([] : List String)
          else do
            let hpLines ← hp.mapM (fun task => do
              let st ← pyGet task "status" (.str "unknown")
              let badge ← pyReplaceTitle st
              let title ← pyGet task "title" (.str "Untitled")
              pure ("- [" ++ badge ++ "] **" ++ pyStrV title ++ "**"))
            pure (["", "## Recent High Priority Tasks:"] ++ hpLines)
        pure (pyJoinLit (head ++ statusLines ++ ["", "## Priority Distribution:"] ++
          priLines ++ hpSection))
    else
      pure "No task data received from MCP server"

/-- `get_simple_task_overview` with its catch-all handler. -/
def get_simple_task_overview (pn : Option String) (run : RunOutcome) : Except PyExc String :=
  tryExcept (get_simple_task_overview_body pn run)
    (fun e => "Error analyzing tasks: " ++ pyExcStr e)

/-- Body of `get_blocked_tasks` (lines 220-296). -/
def get_blocked_tasks_body (pn : Option String) (run : RunOutcome) : Except PyExc String := do
  let params := withProject
    [("status", .str "blocked"), ("limit", .num 50), ("offset", .num 0),
     ("include_full_data", .bool true)] pn
  let blocked_data ← call_mcp_tool "simpletask_get_tasks_by_status" params run
  let hasErr ← pyInStr "error" blocked_data
  if hasErr then do
    let ev ← pyGetItem blocked_data "error"
    pure ("Error getting blocked tasks: " ++ pyStrV ev)
  else do
    let hasContent ← pyInStr "content" blocked_data
    let contentOk ← if hasContent then do
        let cv ← pyGetItem blocked_data "content"
        let n ← pyLen cv
        pure (decide (0 < n))
      else pure false
    if contentOk then do
      let cv ← pyGetItem blocked_data "content"
      let c0 ← pyIndex0 cv
      let contentV ← pyGet c0 "text" (.str "")
      match ← pyJsonLoadsV contentV with
      | none => do
        let sl ← pySlice contentV 200
        pure ("Error parsing blocked tasks data: " ++ pyStrV sl ++ "...")
      | some task_data => do
        let items ← pyGet task_data "items" (.arr [])
        if !(pyTruthy items) then pure "✅ No blocked tasks found!"
        else do
          let n ← pyLen items
          let tasks ← pyIter items
          let sections ← (enumFrom 1 tasks).mapM (fun iv => do
            let task := iv.2
            let title ← pyGet task "title" (.str "Untitled")
            let prV ← pyGet task "priority" (.str "unknown")
            let priority ← pyTitle prV
            let asg ← pyGet task "assigned_to" .null
            let assigned := if pyTruthy asg then asg else .str "Unassigned"
            let deps ← pyGet task "depends_on" (.arr [])
            let created ← pyGet task "created_at" (.str "")
            let createdS ← if pyTruthy created then do
                let sl ← pySlice created 10
                pure (pyStrV sl)
              else pure "Unknown"
            let base := ["## " ++ natStr iv.1 ++ ". " ++ pyStrV title,
                         "- **Priority**: " ++ priority,
                         "- **Assigned to**: " ++ pyStrV assigned,
                         "- **Created**: " ++ createdS]
            let depLines ← if pyTruthy deps then do
                let dn ← pyLen deps
                pure ["- **Depends on**: " ++ natStr dn ++ " task(s)"]
              else pure []
            let descV ← pyGet task "description" (.str "")
            let desc ← pyStrip descV
            let descLines :=
              if desc ≠ "" then
                [("- **Description**: " ++
                  (if 200 < desc.length then String.mk (desc.data.take 200) ++ "..." else desc))]
              else []
            pure (base ++ depLines ++ descLines ++ [""]))
          pure (pyJoinLit (["# Blocked Tasks (" ++ natStr n ++ " found)",
                            "**Data Source**: aitistra.com API", ""] ++ sections.flatten))
    else
      pure "No blocked tasks data received from MCP server"

/-- `get_blocked_tasks` with its catch-all handler. -/
def get_blocked_tasks (pn : Option String) (run : RunOutcome) : Except PyExc String :=
  tryExcept (get_blocked_tasks_body pn run)
    (fun e => "Error analyzing blocked tasks: " ++ pyExcStr e)

/-- Body of `get_high_priority_tasks` (lines 299-382). -/
def get_high_priority_tasks_body (pn : Option String) (run : RunOutcome) :
    Except PyExc String := do
  let params := withProject
    [("priority", .str "high"), ("limit", .num 25), ("offset", .num 0),
     ("include_full_data", .bool true)] pn
  let hp_data ← call_mcp_tool "simpletask_get_tasks_by_priority" params run
  let hasErr ← pyInStr "error" hp_data
  if hasErr then do
    let ev ← pyGetItem hp_data "error"
    pure ("Error getting high priority tasks: " ++ pyStrV ev)
  else do
    let hasContent ← pyInStr "content" hp_data
    let contentOk ← if hasContent then do
        let cv ← pyGetItem hp_data "content"
        let n ← pyLen cv
        pure (decide (0 < n))
      else pure false
    if contentOk then do
      let cv ← pyGetItem hp_data "content"
      let c0 ← pyIndex0 cv
      let contentV ← pyGet c0 "text" (.str "")
      match ← pyJsonLoadsV contentV with
      | none => do
        let sl ← pySlice contentV 200
        pure ("Error parsing high priority tasks data: " ++ pyStrV sl ++ "...")
      | some task_data => do
        let items ← pyGet task_data "items" (.arr [])
        if !(pyTruthy items) then pure "No high priority tasks found."
        else do
          let tasks ← pyIter items
          let by_status ← tasks.foldlM (fun groups task => do
            let st ← pyGet task "status" (.str "unknown")
            bumpGroup groups st task) []
          let n ← pyLen items
          let sections ← ["blocked", "todo", "in_progress", "review", "completed"].mapM
            (fun status => do
              match assocFind by_status (.str status) with
              | none => pure ([] : List String)
              | some ts => do
                let taskLines ← ts.mapM (fun task => do
                  let title ← pyGet task "title" (.str "Untitled")
                  let asg ← pyGet task "assigned_to" .null
                  let assigned := if pyTruthy asg then asg else .str "Unassigned"
                  let created ← pyGet task "created_at" (.str "")
                  let tid ← pyGet task "id" (.str "unknown")
                  let line1 := "- **" ++ pyStrV title ++ "** (ID: " ++ pyStrV tid ++
                    ", Assigned: " ++ pyStrV assigned ++ ")"
                  let moreLines ← if pyTruthy created then do
                      let sl ← pySlice created 10
                      pure ["  Created: " ++ pyStrV sl]
                    else pure []
                  pure ([line1] ++ moreLines))
                pure (["## " ++ pyTitleStr (replaceChar status '_' ' ') ++
                        " (" ++ natStr ts.length ++ ")", ""] ++ taskLines.flatten ++ [""]))
          pure (pyJoinLit (["# High Priority Tasks (" ++ natStr n ++ " found)",
                            "**Data Source**: aitistra.com API", ""] ++ sections.flatten))
    else
      pure "No high priority tasks data received from MCP server"

/-- `get_high_priority_tasks` with its catch-all handler. -/
def get_high_priority_tasks (pn : Option String) (run : RunOutcome) : Except PyExc String :=
  tryExcept (get_high_priority_tasks_body pn run)
    (fun e => "Error analyzing high priority tasks: " ++ pyExcStr e)

/-- Main part of `analyze_team_workload` after the optional project switch
(lines 401-489). -/
def workloadMain (run : RunOutcome) : Except PyExc String := do
  let params : PyVal := .obj
    [("limit", .num 200), ("offset", .num 0), ("include_full_data", .bool true)]
  let tasks_data ← call_mcp_tool "simpletask_get_tasks" params run
  let hasErr ← pyInStr "error" tasks_data
  if hasErr then do
    let ev ← pyGetItem tasks_data "error"
    pure ("Error getting tasks: " ++ pyStrV ev)
  else do
    let items ← pyGet tasks_data "items" (.arr [])
    if !(pyTruthy items) then pure "No tasks found for workload analysis."
    else do
      let total_tasks ← pyLen items
      let tasks ← pyIter items
      let st ← tasks.foldlM
        (fun (acc : List (PyVal × List (String × Nat)) × Nat) task => do
          let asg ← pyGet task "assigned_to" .null
          if !(pyTruthy asg) then pure (acc.1, acc.2 + 1)
          else do
            let wl ← if hashableB asg then
                pure (if (assocFind acc.1 asg).isSome then acc.1
                      else acc.1 ++ [(asg, initCounters)])
              else
                .error (.typeError ("unhashable type: " ++ "\x27" ++ typeName asg ++ "\x27"))
            let wl := wlBump wl asg "total"
            let pr ← pyGet task "priority" .null
            let wl := if pyEqStr "high" pr then wlBump wl asg "high" else wl
            let stv ← pyGet task "status" (.str "unknown")
            let hasSt ← if hashableB stv then
                pure (counterHasKey ((assocFind wl asg).getD initCounters) stv)
              else
                .error (.typeError ("unhashable type: " ++ "\x27" ++ typeName stv ++ "\x27"))
            let wl := if hasSt then wlBumpV wl asg stv else wl
            pure (wl, acc.2)) ([], 0)
      let pct ← workloadPct st.2 total_tasks
      let header := ["# Team Workload Analysis",
                     "**Total Active Tasks**: " ++ natStr total_tasks,
                     "**Unassigned Tasks**: " ++ natStr st.2 ++ " (" ++ fmtTenths pct ++ "%)",
                     "**Data Source**: aitistra.com API",
                     "",
                     "## Individual Workloads:",
                     ""]
      let sections ← (sortDescByTotal st.1).mapM (fun ml => do
        let member := ml.1
        let load := ml.2
        let hasAt ← pyInStr "@" member
        let display ← if hasAt then
            match member with
            | .str s => pure (PyVal.str (pyTitleStr (splitAtSign s)))
            | v => .error (.attrError ("\x27" ++ typeName v ++ "\x27" ++
                " object has no attribute \x27split\x27"))
          else pure member
        let base := ["### " ++ pyStrV display,
                     "- **Email**: " ++ pyStrV member,
                     "- **Total Tasks**: " ++ natStr (counterGet load "total"),
                     "- **High Priority**: " ++ natStr (counterGet load "high"),
                     "- **Blocked**: " ++ natStr (counterGet load "blocked"),
                     "- **In Progress**: " ++ natStr (counterGet load "in_progress"),
                     "- **Completed**: " ++ natStr (counterGet load "completed"),
                     "- **Todo**: " ++ natStr (counterGet load "todo"),
                     ""]
        let assess :=
          if 10 < counterGet load "total" then
            ["  ⚠️  **High workload** - Consider redistributing tasks"]
          else if 2 < counterGet load "blocked" then
            ["  🚧 **Multiple blockers** - Needs support unblocking tasks"]
          else if 3 < counterGet load "high" then
            ["  🔥 **Many high-priority tasks** - May need prioritization help"]
          else []
        pure (base ++ assess ++ [""]))
      pure (pyJoinLit (header ++ sections.flatten))

/-- Body of `analyze_team_workload` (lines 385-492): optional project
switch, then the workload analysis.  The two `RunOutcome`s are the
outcomes of the (up to) two bridge calls the function makes, in order. -/
def analyze_team_workload_body (pn : Option String) (runSwitch runTasks : RunOutcome) :
    Except PyExc String := do
  if pnTruthy pn then do
    let sw ← switch_project (pn.getD "") runSwitch
    if strContains sw "Error" then pure ("Project switch failed: " ++ sw)
    else workloadMain runTasks
  else workloadMain runTasks

/-- `analyze_team_workload` with its catch-all handler. -/
def analyze_team_workload (pn : Option String) (runSwitch runTasks : RunOutcome) :
    Except PyExc String :=
  tryExcept (analyze_team_workload_body pn runSwitch runTasks)
    (fun e => "Error analyzing workload: " ++ pyExcStr e)

/-- Main part of `search_tasks` after the optional project switch
(lines 512-555). -/
def searchMain (query : String) (run : RunOutcome) : Except PyExc String := do
  let params : PyVal := .obj
    [("query", .str query), ("limit", .num 25), ("offset", .num 0),
     ("include_full_data", .bool false)]
  let search_data ← call_mcp_tool "simpletask_search_tasks" params run
  let hasErr ← pyInStr "error" search_data
  if hasErr then do
    let ev ← pyGetItem search_data "error"
    pure ("Error searching tasks: " ++ pyStrV ev)
  else do
    let items ← pyGet search_data "items" (.arr [])
    let total ← pyGet search_data "total_count" (.num 0)
    if !(pyTruthy items) then pure ("No tasks found matching " ++ "\x27" ++ query ++ "\x27")
    else do
      let n ← pyLen items
      let tasks ← pyIter items
      let sections ← (enumFrom 1 tasks).mapM (fun iv => do
        let task := iv.2
        let title ← pyGet task "title" (.str "Untitled")
        let stV ← pyGet task "status" (.str "unknown")
        let status ← pyTitle stV
        let prV ← pyGet task "priority" (.str "unknown")
        let priority ← pyTitle prV
        let asg ← pyGet task "assigned_to" .null
        let assigned := if pyTruthy asg then asg else .str "Unassigned"
        let tid ← pyGet task "id" (.str "unknown")
        pure ["## " ++ natStr iv.1 ++ ". " ++ pyStrV title,
              "- **Status**: " ++ status,
              "- **Priority**: " ++ priority,
              "- **Assigned**: " ++ pyStrV assigned,
              "- **ID**: " ++ pyStrV tid,
              ""])
      pure (pyJoinLit (["# Search Results for " ++ "\x27" ++ query ++ "\x27",
                        "**Found**: " ++ pyStrV total ++ " tasks",
                        "**Showing**: " ++ natStr n ++ " results",
                        "**Data Source**: aitistra.com API", ""] ++ sections.flatten))

/-- Body of `search_tasks` (lines 495-558). -/
def search_tasks_body (query : String) (pn : Option String) (runSwitch runSearch : RunOutcome) :
    Except PyExc String := do
  if pnTruthy pn then do
    let sw ← switch_project (pn.getD "") runSwitch
    if strContains sw "Error" then pure ("Project switch failed: " ++ sw)
    else searchMain query runSearch
  else searchMain query runSearch

/-- `search_tasks` with its catch-all handler. -/
def search_tasks (query : String) (pn : Option String) (runSwitch runSearch : RunOutcome) :
    Except PyExc String :=
  tryExcept (search_tasks_body query pn runSwitch runSearch)
    (fun e => "Error searching tasks: " ++ pyExcStr e)

/-- Main part of `get_project_info` after the optional project switch
(lines 577-612). -/
def infoMain (pn : Option String) (runInfo runList : RunOutcome) : Except PyExc String := do
  let project_data ← call_mcp_tool "simpletask_get_project_info" (.obj []) runInfo
  let hasErr ← pyInStr "error" project_data
  if hasErr then do
    let ev ← pyGetItem project_data "error"
    pure ("Error getting project info: " ++ pyStrV ev)
  else do
    let projects_data ← call_mcp_tool "simpletask_list_projects" (.obj []) runList
    let header := ["# Project Information", "**Data Source**: aitistra.com API", ""]
    let hasErr2 ← pyInStr "error" projects_data
    if !hasErr2 then do
      let n ← pyLen projects_data
      let projects ← pyIter projects_data
      let sections ← projects.mapM (fun project => do
        let name ← pyGet project "name" (.str "Unknown")
        let key ← pyGet project "projectName" (.str "unknown")
        let desc ← pyGet project "description" (.str "No description")
        let is_current := if pnTruthy pn then pyEqStr (pn.getD "") key else false
        pure ["### " ++ pyStrV name ++ " " ++ (if is_current then "**[CURRENT]**" else ""),
              "- **Project Key**: " ++ pyStrV key,
              "- **Description**: " ++ pyStrV desc,
              ""])
      pure (pyJoinLit (header ++ ["## Available Projects (" ++ natStr n ++ " total):", ""] ++
        sections.flatten))
    else
      pure (pyJoinLit header)

/-- Body of `get_project_info` (lines 561-615): optional project switch,
then one call for the project info and one for the project list. -/
def get_project_info_body (pn : Option String) (runSwitch runInfo runList : RunOutcome) :
    Except PyExc String := do
  if pnTruthy pn then do
    let sw ← switch_project (pn.getD "") runSwitch
    if strContains sw "Error" then pure ("Project switch failed: " ++ sw)
    else infoMain pn runInfo runList
  else infoMain pn runInfo runList

/-- `get_project_info` with its catch-all handler. -/
def get_project_info (pn : Option String) (runSwitch runInfo runList : RunOutcome) :
    Except PyExc String :=
  tryExcept (get_project_info_body pn runSwitch runInfo runList)
    (fun e => "Error getting project info: " ++ pyExcStr e)

/-- The computation does not raise `ZeroDivisionError`. -/
def NoZD {α : Type} (x : Except PyExc α) : Prop := x ≠ .error .zeroDivision

/-- The stub child line of the specification\x27s end-to-end scenario:
the JSON-RPC response whose content text decodes to
`\x7b"items":[],"total_count":0\x7d`. -/
def c8Stub : String :=
  "\x7b\"jsonrpc\":\"2.0\",\"id\":1,\"result\":\x7b\"content\":[\x7b\"text\":\"\x7b\\\"items\\\":[],\\\"total_count\\\":0\x7d\"\x7d]\x7d\x7d"

/-- The string `get_simple_task_overview` actually returns on that
scenario: one physical line in which the intended line breaks appear as
the literal two-character sequence backslash-`n` (from the source\x27s
`"\x5c\x5cn".join`). -/
def c8Out : String :=
  "# Simple Task Overview\x5cn**Total Tasks**: 0\x5cn**Project**: Default Project\x5cn**Data Source**: aitistra.com API\x5cn\x5cn## Status Distribution:\x5cn\x5cn## Priority Distribution:"

/-! ### Decimal digits and the integer token -/

theorem digitChar10_mem (n : Nat) :
    digitChar10 n ∈ ['0', '1', '2', '3', '4', '5', '6', '7', '8', '9'] := by
  unfold digitChar10
  split_ifs <;> simp

theorem natDigitsAux_mem : ∀ fuel n c, c ∈ natDigitsAux fuel n →
    c ∈ ['0', '1', '2', '3', '4', '5', '6', '7', '8', '9'] := by
  intro fuel
  induction fuel with
  | zero => intro n c hc; simp [natDigitsAux] at hc
  | succ f ih =>
    intro n c hc
    unfold natDigitsAux at hc
    by_cases h : n < 10
    · simp [h] at hc
      subst hc
      exact digitChar10_mem n
    · simp [h] at hc
      rcases hc with hc | hc
      · exact ih _ _ hc
      · subst hc; exact digitChar10_mem _

theorem mem_digits_isDigit {c : Char}
    (h : c ∈ ['0', '1', '2', '3', '4', '5', '6', '7', '8', '9']) : c.isDigit = true := by
  fin_cases h <;> decide

theorem mem_digits_ne_minus {c : Char}
    (h : c ∈ ['0', '1', '2', '3', '4', '5', '6', '7', '8', '9']) : c ≠ '-' := by
  fin_cases h <;> decide

theorem digitChar10_val {n : Nat} (h : n < 10) : (digitChar10 n).toNat - 48 = n := by
  interval_cases n <;> decide

theorem natDigits_ne_nil (n : Nat) : natDigits n ≠ [] := by
  unfold natDigits natDigitsAux
  by_cases hn : n < 10 <;> simp [hn]

theorem natDigitsAux_foldl : ∀ fuel n acc, n ≤ fuel →
    (natDigitsAux fuel n).foldl (fun a c => a * 10 + (c.toNat - 48)) acc =
      acc * 10 ^ (natDigitsAux fuel n).length + n := by
  intro fuel
  induction fuel with
  | zero =>
    intro n acc h
    have hn : n = 0 := by omega
    subst hn
    simp [natDigitsAux]
  | succ f ih =>
    intro n acc h
    unfold natDigitsAux
    by_cases hn : n < 10
    · simp only [if_pos hn, List.foldl_cons, List.foldl_nil, List.length_singleton]
      rw [digitChar10_val hn, pow_one]
    · have hlt : n / 10 < n := Nat.div_lt_self (by omega) (by omega)
      have hle : n / 10 ≤ f := by omega
      simp only [if_neg hn, List.foldl_append, List.foldl_cons, List.foldl_nil,
        List.length_append, List.length_singleton]
      rw [ih (n / 10) acc hle, digitChar10_val (Nat.mod_lt _ (by omega)), pow_succ]
      have hdm := Nat.div_add_mod n 10
      have hring : (acc * 10 ^ (natDigitsAux f (n / 10)).length + n / 10) * 10 =
          acc * (10 ^ (natDigitsAux f (n / 10)).length * 10) + n / 10 * 10 := by ring
      omega

theorem digitsToNat_natDigits (n : Nat) : digitsToNat (natDigits n) = n := by
  unfold natDigits digitsToNat
  rw [natDigitsAux_foldl (n + 1) n 0 (by omega)]
  simp

theorem pDigits_digits : ∀ ds rest, (∀ c ∈ ds, c.isDigit = true) →
    (∀ c cs, rest = c :: cs → c.isDigit = false) →
    pDigits (ds ++ rest) = (ds, rest) := by
  intro ds
  induction ds with
  | nil =>
    intro rest _ hrest
    cases rest with
    | nil => simp [pDigits]
    | cons c cs => simp [pDigits, hrest c cs rfl]
  | cons d ds ih =>
    intro rest hds hrest
    have hd := hds d (by simp)
    simp [pDigits, hd, ih rest (fun c hc => hds c (by simp [hc])) hrest]

theorem numDelimOk_head {rest : List Char} (h : numDelimOk rest = true) :
    ∀ c cs, rest = c :: cs → c.isDigit = false := by
  intro c cs e
  subst e
  simp only [numDelimOk, Bool.not_eq_eq_eq_not, Bool.not_true, Bool.or_eq_false_iff] at h
  exact h.1.1.1

theorem pInt_intChars (n : Int) (rest : List Char) (hnd : numDelimOk rest = true) :
    pInt (intChars n ++ rest) = some (n, rest) := by
  have hrest := numDelimOk_head hnd
  unfold intChars
  by_cases hn : n < 0
  · simp only [if_pos hn, List.cons_append]
    have hpd : pDigits (natDigits (-n).toNat ++ rest) = (natDigits (-n).toNat, rest) :=
      pDigits_digits _ _ (fun c hc => mem_digits_isDigit (natDigitsAux_mem _ _ c hc)) hrest
    obtain ⟨d, ds, hd⟩ := List.exists_cons_of_ne_nil (natDigits_ne_nil (-n).toNat)
    rw [hd] at hpd
    simp only [pInt, if_pos rfl, hd, List.cons_append] at hpd ⊢
    rw [hpd]
    simp only [hnd, if_pos rfl]
    rw [show digitsToNat (d :: ds) = (-n).toNat from hd ▸ digitsToNat_natDigits (-n).toNat]
    have hval : -(((-n).toNat : Nat) : Int) = n := by omega
    rw [hval]
    simp
  · have hpd : pDigits (natDigits n.toNat ++ rest) = (natDigits n.toNat, rest) :=
      pDigits_digits _ _ (fun c hc => mem_digits_isDigit (natDigitsAux_mem _ _ c hc)) hrest
    obtain ⟨d, ds, hd⟩ := List.exists_cons_of_ne_nil (natDigits_ne_nil n.toNat)
    have hdm : d ∈ ['0', '1', '2', '3', '4', '5', '6', '7', '8', '9'] :=
      natDigitsAux_mem _ _ d (by rw [show natDigitsAux (n.toNat + 1) n.toNat = natDigits n.toNat from rfl, hd]; simp)
    rw [hd] at hpd
    simp only [if_neg hn, hd, List.cons_append, pInt]
    rw [if_neg (mem_digits_ne_minus hdm)]
    rw [show d :: (ds ++ rest) = (d :: ds) ++ rest from rfl, hpd]
    simp only [hnd, if_pos rfl]
    rw [show digitsToNat (d :: ds) = n.toNat from hd ▸ digitsToNat_natDigits n.toNat]
    have hval : ((n.toNat : Nat) : Int) = n := by omega
    rw [hval]
    simp

/-! ### String-literal escaping round-trip -/

theorem hexVal_hexChar {m : Nat} (h : m < 16) : hexVal (hexChar m) = some m := by
  interval_cases m <;> decide

theorem pStr_escape : ∀ cs rest, pStr (escStr cs ++ '"' :: rest) = some (cs, rest) := by
  intro cs
  induction cs with
  | nil =>
    intro rest
    show pStr ('"' :: rest) = _
    unfold pStr
    simp
  | cons c cs ih =>
    intro rest
    show pStr ((escChar c ++ escStr cs) ++ '"' :: rest) = _
    rw [List.append_assoc]
    unfold escChar
    split_ifs with h1 h2 h3 h4 h5 h6 h7 h8
    · subst h1; unfold pStr; simp [ih]
    · subst h2; unfold pStr; simp [ih]
    · subst h3; unfold pStr; simp [ih]
    · subst h4; unfold pStr; simp [ih]
    · subst h5; unfold pStr; simp [ih]
    · subst h6; unfold pStr; simp [ih]
    · subst h7; unfold pStr; simp [ih]
    · have hhi : c.toNat / 16 < 16 := by omega
      have hlo : c.toNat % 16 < 16 := Nat.mod_lt _ (by omega)
      have hn : (((0 * 16 + 0) * 16 + c.toNat / 16) * 16 + c.toNat % 16) = c.toNat := by
        have := Nat.div_add_mod c.toNat 16
        omega
      have hvalid : Nat.isValidChar (((0 * 16 + 0) * 16 + c.toNat / 16) * 16 + c.toNat % 16) := by
        rw [hn]
        exact Or.inl (by omega)
      have h0 : hexVal '0' = some 0 := by decide
      unfold pStr
      simp only [List.cons_append, List.nil_append]
      simp [h0, hexVal_hexChar hhi, hexVal_hexChar hlo, hvalid, hn, Char.ofNat_toNat, ih]
      have hn2 : c.toNat / 16 * 16 + c.toNat % 16 = c.toNat := by
        have := Nat.div_add_mod c.toNat 16
        omega
      rw [hn2]
      exact ⟨Or.inl (by omega), Char.ofNat_toNat c⟩
    · unfold pStr
      simp [h1, h2, h8, ih]

/-! ### Object-member deduplication on duplicate-free input -/

theorem dupFree_iff {ks : List String} : dupFree ks = true ↔ ks.Nodup := by
  induction ks with
  | nil => simp [dupFree]
  | cons k ks ih =>
    simp [dupFree, ih, List.nodup_cons, List.contains, List.elem_iff]

theorem setKey_of_not_mem : ∀ (acc : List (String × PyVal)) (k : String) (v : PyVal),
    (∀ p ∈ acc, p.1 ≠ k) → setKey acc k v = acc ++ [(k, v)] := by
  intro acc
  induction acc with
  | nil => intro k v _; rfl
  | cons q acc ih =>
    intro k v h
    obtain ⟨l, w⟩ := q
    have hl : l ≠ k := h (l, w) (by simp)
    simp [setKey, hl, ih k v (fun p hp => h p (by simp [hp]))]

theorem foldl_setKey_nodup : ∀ (kvs acc : List (String × PyVal)),
    (keysOf acc ++ keysOf kvs).Nodup →
    List.foldl (fun a p => setKey a p.1 p.2) acc kvs = acc ++ kvs := by
  intro kvs
  induction kvs with
  | nil => intro acc _; simp
  | cons p kvs ih =>
    intro acc h
    obtain ⟨k, v⟩ := p
    have hkeys : keysOf ((k, v) :: kvs) = k :: keysOf kvs := rfl
    rw [hkeys] at h
    have hdisj : ∀ q ∈ acc, q.1 ≠ k := by
      intro q hq he
      have h1 := (List.nodup_append.mp h).2.2
      exact h1 (by simpa [keysOf] using List.mem_map_of_mem Prod.fst hq) (by simp [he])
    rw [List.foldl_cons, setKey_of_not_mem acc k v hdisj]
    rw [ih (acc ++ [(k, v)]) (by
      have : keysOf (acc ++ [(k, v)]) = keysOf acc ++ [k] := by simp [keysOf]
      rw [this, ← List.append_cons]
      exact h)]
    simp

theorem dedupK_nodup (kvs : List (String × PyVal)) (h : dupFree (keysOf kvs) = true) :
    dedupK kvs = kvs := by
  unfold dedupK
  have hfold := foldl_setKey_nodup kvs [] (by simpa [keysOf] using dupFree_iff.mp h)
  simpa using hfold

/-! ### Head characters of serialized values -/

theorem mk_data (s : String) : String.mk s.data = s := rfl

theorem skipWs_cons {c : Char} (cs : List Char) (h : isWsChar c = false) :
    skipWs (c :: cs) = c :: cs := by
  unfold skipWs
  simp [h]

theorem numDelimOk_comma (r : List Char) : numDelimOk (',' :: r) = true := rfl

theorem numDelimOk_rbracket (r : List Char) : numDelimOk (']' :: r) = true := rfl

theorem numDelimOk_rbrace (r : List Char) : numDelimOk ('\x7d' :: r) = true := rfl

theorem intChars_head (n : Int) : ∃ d ds, intChars n = d :: ds ∧ isWsChar d = false ∧
    numStart d = true ∧ d ≠ '"' ∧ d ≠ '\x7b' ∧ d ≠ '[' ∧ d ≠ 't' ∧ d ≠ 'f' ∧ d ≠ 'n' ∧
    d ≠ ']' ∧ d ≠ '\x7d' := by
  unfold intChars
  by_cases hn : n < 0
  · refine ⟨'-', natDigits (-n).toNat, by simp [hn], ?_, ?_, ?_, ?_, ?_, ?_, ?_, ?_, ?_⟩ <;> decide
  · obtain ⟨d, ds, hd⟩ := List.exists_cons_of_ne_nil (natDigits_ne_nil n.toNat)
    have hm : d ∈ ['0', '1', '2', '3', '4', '5', '6', '7', '8', '9'] :=
      natDigitsAux_mem _ _ d (by
        rw [show natDigitsAux (n.toNat + 1) n.toNat = natDigits n.toNat from rfl, hd]; simp)
    refine ⟨d, ds, by simp [hn, hd], ?_, ?_, ?_, ?_, ?_, ?_, ?_, ?_, ?_⟩ <;>
      (fin_cases hm <;> decide)

theorem stringifyV_head (v : PyVal) : ∃ c cs, stringifyV v = c :: cs ∧ isWsChar c = false ∧
    c ≠ ']' ∧ c ≠ '\x7d' := by
  cases v with
  | num n =>
    obtain ⟨d, ds, hd, hws, _, _, _, _, _, _, _, hrb, hcb⟩ := intChars_head n
    exact ⟨d, ds, hd, hws, hrb, hcb⟩
  | bool b => cases b <;> refine ⟨_, _, rfl, ?_, ?_, ?_⟩ <;> decide
  | null => refine ⟨_, _, rfl, ?_, ?_, ?_⟩ <;> decide
  | str s => refine ⟨_, _, rfl, ?_, ?_, ?_⟩ <;> decide
  | arr xs => refine ⟨_, _, rfl, ?_, ?_, ?_⟩ <;> decide
  | obj kvs => refine ⟨_, _, rfl, ?_, ?_, ?_⟩ <;> decide
  | pyobj i => refine ⟨_, _, rfl, ?_, ?_, ?_⟩ <;> decide

theorem stringifyL_cons_head {x : PyVal} {c : Char} {cs : List Char}
    (h : stringifyV x = c :: cs) (xs : List PyVal) :
    ∃ t, stringifyL (x :: xs) = c :: t := by
  cases xs with
  | nil => exact ⟨cs, by simp [stringifyL, h]⟩
  | cons y ys => exact ⟨cs ++ ',' :: stringifyL (y :: ys), by simp [stringifyL, h]⟩

/-! ### The serializer/parser round trip -/

mutual

theorem rtV : ∀ fuel v rest, wfV v = true → jsizeV v ≤ fuel → numDelimOk rest = true →
    pVal fuel (stringifyV v ++ rest) = some (v, rest)
  | 0, v, rest => by
    intro _ hsz _
    exfalso
    cases v <;> simp [jsizeV] at hsz
  | fuel + 1, v, rest => by
    intro hwf hsz hnd
    cases v with
    | null =>
      show pVal (fuel + 1) ('n' :: 'u' :: 'l' :: 'l' :: rest) = _
      unfold pVal
      simp [skipWs, isWsChar, expectChars]
    | bool b =>
      cases b with
      | true =>
        show pVal (fuel + 1) ('t' :: 'r' :: 'u' :: 'e' :: rest) = _
        unfold pVal
        simp [skipWs, isWsChar, expectChars]
      | false =>
        show pVal (fuel + 1) ('f' :: 'a' :: 'l' :: 's' :: 'e' :: rest) = _
        unfold pVal
        simp [skipWs, isWsChar, expectChars]
    | num n =>
      obtain ⟨d, ds, hd, hws, hns, hq, hob, hlb, ht, hf, hn2, _, _⟩ := intChars_head n
      show pVal (fuel + 1) (intChars n ++ rest) = _
      rw [hd, List.cons_append]
      unfold pVal
      rw [skipWs_cons _ hws]
      simp only [hq, ht, hf, hn2, hob, hlb, if_false, if_neg, hns, if_true, reduceIte]
      rw [show d :: (ds ++ rest) = intChars n ++ rest by rw [hd, List.cons_append]]
      rw [pInt_intChars n rest hnd]
      rfl
    | str s =>
      show pVal (fuel + 1) (('"' :: escStr s.data ++ ['"']) ++ rest) = _
      have hshape : ('"' :: escStr s.data ++ ['"']) ++ rest =
          '"' :: (escStr s.data ++ '"' :: rest) := by simp
      rw [hshape]
      unfold pVal
      rw [skipWs_cons _ (by decide)]
      simp only [reduceIte]
      rw [pStr_escape s.data rest]
      simp [mk_data]
    | arr xs =>
      simp only [wfV] at hwf
      have hszL : jsizeL xs + 1 ≤ fuel := by simp [jsizeV] at hsz; omega
      show pVal (fuel + 1) (('[' :: stringifyL xs ++ [']']) ++ rest) = _
      have hshape : ('[' :: stringifyL xs ++ [']']) ++ rest =
          '[' :: (stringifyL xs ++ ']' :: rest) := by simp
      rw [hshape]
      unfold pVal
      rw [skipWs_cons _ (by decide)]
      simp only [reduceIte]
      rw [rtArrB fuel xs rest hwf hszL]
      simp
    | obj kvs =>
      simp only [wfV, Bool.and_eq_true] at hwf
      have hszK : jsizeK kvs + 1 ≤ fuel := by simp [jsizeV] at hsz; omega
      show pVal (fuel + 1) (('\x7b' :: stringifyK kvs ++ ['\x7d']) ++ rest) = _
      have hshape : ('\x7b' :: stringifyK kvs ++ ['\x7d']) ++ rest =
          '\x7b' :: (stringifyK kvs ++ '\x7d' :: rest) := by simp
      rw [hshape]
      unfold pVal
      rw [skipWs_cons _ (by decide)]
      simp only [reduceIte]
      rw [rtObjB fuel kvs rest hwf.1 hwf.2 hszK]
      simp
    | pyobj i => simp [wfV] at hwf

theorem rtArrB : ∀ fuel xs rest, wfL xs = true → jsizeL xs + 1 ≤ fuel →
    pArrBody fuel (stringifyL xs ++ ']' :: rest) = some (.arr xs, rest)
  | 0, xs, rest => by intro _ hsz; omega
  | fuel + 1, xs, rest => by
    intro hwf hsz
    cases xs with
    | nil =>
      show pArrBody (fuel + 1) (']' :: rest) = _
      unfold pArrBody
      rw [skipWs_cons _ (by decide)]
      simp
    | cons x xs =>
      obtain ⟨c, cs, hc, hcws, hcrb, _⟩ := stringifyV_head x
      obtain ⟨t, ht⟩ := stringifyL_cons_head hc xs
      rw [ht, List.cons_append]
      unfold pArrBody
      rw [skipWs_cons _ hcws]
      simp only [hcrb, if_neg, reduceIte, if_false]
      rw [show c :: (t ++ ']' :: rest) = stringifyL (x :: xs) ++ ']' :: rest by
        rw [ht, List.cons_append]]
      rw [rtElems fuel (x :: xs) rest hwf (by omega) (by simp)]
      rfl

theorem rtElems : ∀ fuel xs rest, wfL xs = true → jsizeL xs ≤ fuel → xs ≠ [] →
    pElems fuel (stringifyL xs ++ ']' :: rest) = some (xs, rest)
  | 0, xs, rest => by
    intro _ hsz hne
    exfalso
    cases xs with
    | nil => exact hne rfl
    | cons x xs => simp [jsizeL] at hsz
  | fuel + 1, x :: xs, rest => by
    intro hwf hsz _
    simp only [wfL, Bool.and_eq_true] at hwf
    cases xs with
    | nil =>
      show pElems (fuel + 1) (stringifyV x ++ ']' :: rest) = _
      unfold pElems
      rw [rtV fuel x (']' :: rest) hwf.1 (by simp [jsizeL] at hsz; omega)
        (numDelimOk_rbracket rest)]
      have hsw : skipWs (']' :: rest) = ']' :: rest := skipWs_cons _ (by decide)
      simp [Option.bind, hsw]
    | cons y ys =>
      show pElems (fuel + 1) ((stringifyV x ++ ',' :: stringifyL (y :: ys)) ++ ']' :: rest) = _
      have hshape : (stringifyV x ++ ',' :: stringifyL (y :: ys)) ++ ']' :: rest =
          stringifyV x ++ ',' :: (stringifyL (y :: ys) ++ ']' :: rest) := by simp
      rw [hshape]
      unfold pElems
      rw [rtV fuel x _ hwf.1 (by simp [jsizeL] at hsz; omega) (numDelimOk_comma _)]
      have hrec := rtElems fuel (y :: ys) rest hwf.2 (by simp [jsizeL] at hsz ⊢; omega) (by simp)
      have hsw : skipWs (',' :: (stringifyL (y :: ys) ++ ']' :: rest)) =
          ',' :: (stringifyL (y :: ys) ++ ']' :: rest) := skipWs_cons _ (by decide)
      simp only [Option.bind, hsw]
      rw [hrec]
      rfl
  | fuel + 1, [], rest => by
    intro _ _ hne
    exact absurd rfl hne

theorem rtObjB : ∀ fuel kvs rest, dupFree (keysOf kvs) = true → wfK kvs = true →
    jsizeK kvs + 1 ≤ fuel →
    pObjBody fuel (stringifyK kvs ++ '\x7d' :: rest) = some (.obj kvs, rest)
  | 0, kvs, rest => by intro _ _ hsz; omega
  | fuel + 1, kvs, rest => by
    intro hdf hwf hsz
    cases kvs with
    | nil =>
      show pObjBody (fuel + 1) ('\x7d' :: rest) = _
      unfold pObjBody
      rw [skipWs_cons _ (by decide)]
      simp
    | cons p kvs =>
      obtain ⟨k, v⟩ := p
      have hhead : ∃ t, stringifyK ((k, v) :: kvs) = '"' :: t := by
        cases kvs with
        | nil => exact ⟨_, rfl⟩
        | cons q kvs => exact ⟨_, rfl⟩
      obtain ⟨t, ht⟩ := hhead
      rw [ht, List.cons_append]
      unfold pObjBody
      rw [skipWs_cons _ (by decide)]
      simp only [reduceIte]
      rw [show '"' :: (t ++ '\x7d' :: rest) = stringifyK ((k, v) :: kvs) ++ '\x7d' :: rest by
        rw [ht, List.cons_append]]
      rw [rtMembers fuel ((k, v) :: kvs) rest hwf (by omega) (by simp)]
      simp [dedupK_nodup _ hdf]

theorem rtMembers : ∀ fuel kvs rest, wfK kvs = true → jsizeK kvs ≤ fuel → kvs ≠ [] →
    pMembers fuel (stringifyK kvs ++ '\x7d' :: rest) = some (kvs, rest)
  | 0, kvs, rest => by
    intro _ hsz hne
    exfalso
    cases kvs with
    | nil => exact hne rfl
    | cons p kvs => obtain ⟨k, v⟩ := p; simp [jsizeK] at hsz
  | fuel + 1, [], rest => by
    intro _ _ hne
    exact absurd rfl hne
  | fuel + 1, (k, v) :: kvs, rest => by
    intro hwf hsz _
    simp only [wfK, Bool.and_eq_true] at hwf
    cases kvs with
    | nil =>
      show pMembers (fuel + 1)
        (('"' :: escStr k.data ++ '"' :: ':' :: stringifyV v) ++ '\x7d' :: rest) = _
      have hshape : ('"' :: escStr k.data ++ '"' :: ':' :: stringifyV v) ++ '\x7d' :: rest =
          '"' :: (escStr k.data ++ '"' :: (':' :: (stringifyV v ++ '\x7d' :: rest))) := by simp
      rw [hshape]
      unfold pMembers
      rw [skipWs_cons _ (by decide)]
      simp only [reduceIte]
      rw [pStr_escape k.data _]
      have hsw : skipWs (':' :: (stringifyV v ++ '\x7d' :: rest)) =
          ':' :: (stringifyV v ++ '\x7d' :: rest) := skipWs_cons _ (by decide)
      simp only [Option.bind, hsw]
      rw [rtV fuel v _ hwf.1 (by simp [jsizeK] at hsz; omega) (numDelimOk_rbrace rest)]
      have hsw2 : skipWs ('\x7d' :: rest) = '\x7d' :: rest := skipWs_cons _ (by decide)
      simp [hsw2, mk_data]
    | cons q kvs =>
      show pMembers (fuel + 1)
        (('"' :: escStr k.data ++ '"' :: ':' :: stringifyV v ++ ',' :: stringifyK (q :: kvs)) ++
          '\x7d' :: rest) = _
      have hshape : ('"' :: escStr k.data ++ '"' :: ':' :: stringifyV v ++
            ',' :: stringifyK (q :: kvs)) ++ '\x7d' :: rest =
          '"' :: (escStr k.data ++ '"' ::
            (':' :: (stringifyV v ++ ',' :: (stringifyK (q :: kvs) ++ '\x7d' :: rest)))) := by
        simp
      rw [hshape]
      unfold pMembers
      rw [skipWs_cons _ (by decide)]
      simp only [reduceIte]
      rw [pStr_escape k.data _]
      have hsw : skipWs (':' :: (stringifyV v ++ ',' :: (stringifyK (q :: kvs) ++ '\x7d' :: rest))) =
          ':' :: (stringifyV v ++ ',' :: (stringifyK (q :: kvs) ++ '\x7d' :: rest)) :=
        skipWs_cons _ (by decide)
      simp only [Option.bind, hsw]
      rw [rtV fuel v _ hwf.1 (by simp [jsizeK] at hsz; omega) (numDelimOk_comma _)]
      have hrec := rtMembers fuel (q :: kvs) rest hwf.2
        (by obtain ⟨l, w⟩ := q; simp [jsizeK] at hsz ⊢; omega) (by simp)
      have hsw2 : skipWs (',' :: (stringifyK (q :: kvs) ++ '\x7d' :: rest)) =
          ',' :: (stringifyK (q :: kvs) ++ '\x7d' :: rest) := skipWs_cons _ (by decide)
      simp only [Option.bind, hsw2]
      rw [hrec]
      simp [mk_data]

end

/-! ### The parser budget suffices for any serialized value -/

mutual

theorem jsizeV_le : ∀ v, jsizeV v ≤ 3 * (stringifyV v).length
  | .null => by simp [jsizeV, stringifyV]
  | .bool b => by cases b <;> simp [jsizeV, stringifyV]
  | .num n => by
    have hlen : 1 ≤ (intChars n).length := by
      unfold intChars
      by_cases hn : n < 0
      · simp [hn]
      · simp only [if_neg hn]
        exact List.length_pos.mpr (natDigits_ne_nil n.toNat)
    simp only [jsizeV, stringifyV]
    omega
  | .str s => by
    simp only [jsizeV, stringifyV, List.length_cons, List.length_append, List.length_singleton]
    omega
  | .arr xs => by
    have h := jsizeL_le xs
    simp only [jsizeV, stringifyV, List.length_cons, List.length_append, List.length_singleton]
    omega
  | .obj kvs => by
    have h := jsizeK_le kvs
    simp only [jsizeV, stringifyV, List.length_cons, List.length_append, List.length_singleton]
    omega
  | .pyobj i => by simp [jsizeV, stringifyV]

theorem jsizeL_le : ∀ xs, jsizeL xs ≤ 3 * (stringifyL xs).length + 1
  | [] => by simp [jsizeL, stringifyL]
  | [x] => by
    have h := jsizeV_le x
    simp only [jsizeL, stringifyL]
    omega
  | x :: y :: xs => by
    have h1 := jsizeV_le x
    have h2 := jsizeL_le (y :: xs)
    simp only [jsizeL] at h2
    simp only [jsizeL, stringifyL, List.length_append, List.length_cons]
    omega

theorem jsizeK_le : ∀ kvs, jsizeK kvs ≤ 3 * (stringifyK kvs).length + 1
  | [] => by simp [jsizeK, stringifyK]
  | [(k, v)] => by
    have h := jsizeV_le v
    simp only [jsizeK, stringifyK, List.length_cons, List.length_append]
    omega
  | (k, v) :: q :: kvs => by
    obtain ⟨l, w⟩ := q
    have h1 := jsizeV_le v
    have h2 := jsizeK_le ((l, w) :: kvs)
    simp only [jsizeK] at h2
    simp only [jsizeK, stringifyK, List.length_cons, List.length_append]
    omega

end

theorem skipWs_all : ∀ ws, (∀ c ∈ ws, isWsChar c = true) → skipWs ws = [] := by
  intro ws
  induction ws with
  | nil => intro _; rfl
  | cons c cs ih =>
    intro h
    unfold skipWs
    rw [if_pos (h c (by simp))]
    exact ih (fun x hx => h x (by simp [hx]))

theorem numDelimOk_ws (ws : List Char) (h : ∀ c ∈ ws, isWsChar c = true) :
    numDelimOk ws = true := by
  cases ws with
  | nil => rfl
  | cons c cs =>
    have hc := h c (by simp)
    simp only [isWsChar, Bool.or_eq_true, decide_eq_true_eq] at hc
    rcases hc with ((rfl | rfl) | rfl) | rfl <;> rfl

/-- The round trip for the exact reader `json_loads` applies to any
serialized well-formed value, with arbitrary trailing whitespace. -/
theorem json_loads_stringify (v : PyVal) (ws : List Char) (hwf : wfV v = true)
    (hws : ∀ c ∈ ws, isWsChar c = true) :
    json_loads (String.mk (stringifyV v ++ ws)) = some v := by
  unfold json_loads
  have hfuel : jsizeV v ≤ 3 * (String.mk (stringifyV v ++ ws)).length + 3 := by
    have h := jsizeV_le v
    have hlen : (String.mk (stringifyV v ++ ws)).length =
        (stringifyV v).length + ws.length := by
      simp [String.length, List.length_append]
    omega
  rw [show (String.mk (stringifyV v ++ ws)).data = stringifyV v ++ ws from rfl]
  rw [rtV _ v ws hwf hfuel (numDelimOk_ws ws hws)]
  simp [skipWs_all ws hws]

theorem json_loads_stringify_nl (v : PyVal) (hwf : wfV v = true) :
    json_loads (stringify v ++ "\x0a") = some v := by
  have hshape : stringify v ++ "\x0a" = String.mk (stringifyV v ++ ['\x0a']) := rfl
  rw [hshape]
  exact json_loads_stringify v ['\x0a'] hwf (by intro c hc; simp at hc; subst hc; rfl)

/-! ### Every parsed value is well-formed -/

theorem setKey_keys_mem : ∀ (acc : List (String × PyVal)) k v,
    k ∈ keysOf acc → keysOf (setKey acc k v) = keysOf acc := by
  intro acc
  induction acc with
  | nil => intro k v h; simp [keysOf] at h
  | cons q acc ih =>
    intro k v h
    obtain ⟨l, w⟩ := q
    by_cases hl : l = k
    · subst hl
      simp [setKey, keysOf]
    · have hmem : k ∈ keysOf acc := by
        simp only [keysOf, List.map_cons, List.mem_cons] at h
        rcases h with h | h
        · exact absurd h.symm hl
        · exact h
      simp only [setKey, if_neg hl, keysOf, List.map_cons]
      have hrec := ih k v hmem
      simp only [keysOf] at hrec
      rw [hrec]

theorem setKey_keys_not_mem : ∀ (acc : List (String × PyVal)) k v,
    k ∉ keysOf acc → keysOf (setKey acc k v) = keysOf acc ++ [k] := by
  intro acc
  induction acc with
  | nil => intro k v _; rfl
  | cons q acc ih =>
    intro k v h
    obtain ⟨l, w⟩ := q
    have hl : l ≠ k := by
      intro e
      exact h (by simp [keysOf, e])
    have hnm : k ∉ keysOf acc := by
      intro hm
      exact h (by simp only [keysOf, List.map_cons, List.mem_cons]; right; exact hm)
    simp only [setKey, if_neg hl, keysOf, List.map_cons]
    have hrec := ih k v hnm
    simp only [keysOf] at hrec
    rw [hrec]
    rfl

theorem nodup_setKey : ∀ (acc : List (String × PyVal)) k v,
    (keysOf acc).Nodup → (keysOf (setKey acc k v)).Nodup := by
  intro acc k v h
  by_cases hm : k ∈ keysOf acc
  · rw [setKey_keys_mem acc k v hm]; exact h
  · rw [setKey_keys_not_mem acc k v hm]
    rw [List.nodup_append]
    exact ⟨h, List.nodup_singleton k, by
      intro a ha hb
      simp at hb
      subst hb
      exact hm ha⟩

theorem wfK_setKey : ∀ (acc : List (String × PyVal)) k v,
    wfK acc = true → wfV v = true → wfK (setKey acc k v) = true := by
  intro acc
  induction acc with
  | nil => intro k v _ hv; simp [setKey, wfK, hv]
  | cons q acc ih =>
    intro k v h hv
    obtain ⟨l, w⟩ := q
    simp only [wfK, Bool.and_eq_true] at h
    by_cases hl : l = k
    · simp [setKey, hl, wfK, hv, h.2]
    · simp [setKey, hl, wfK, h.1, ih k v h.2 hv]

theorem dedupK_dupFree (ms : List (String × PyVal)) :
    dupFree (keysOf (dedupK ms)) = true := by
  unfold dedupK
  rw [dupFree_iff]
  have inv : ∀ (l : List (String × PyVal)) acc, (keysOf acc).Nodup →
      (keysOf (List.foldl (fun a p => setKey a p.1 p.2) acc l)).Nodup := by
    intro l
    induction l with
    | nil => intro acc h; exact h
    | cons p l ih =>
      intro acc h
      exact ih _ (nodup_setKey acc p.1 p.2 h)
  exact inv ms [] (by simp [keysOf])

theorem dedupK_wfK (ms : List (String × PyVal)) (h : wfK ms = true) :
    wfK (dedupK ms) = true := by
  unfold dedupK
  have inv : ∀ (l : List (String × PyVal)) acc, wfK l = true → wfK acc = true →
      wfK (List.foldl (fun a p => setKey a p.1 p.2) acc l) = true := by
    intro l
    induction l with
    | nil => intro acc _ hacc; exact hacc
    | cons p l ih =>
      intro acc hl hacc
      obtain ⟨k, v⟩ := p
      simp only [wfK, Bool.and_eq_true] at hl
      exact ih _ hl.2 (wfK_setKey acc k v hacc hl.1)
  exact inv ms [] h rfl

theorem wfK_lookup : ∀ (kvs : List (String × PyVal)) k r,
    wfK kvs = true → lookupKey kvs k = some r → wfV r = true := by
  intro kvs
  induction kvs with
  | nil => intro k r _ h; simp [lookupKey] at h
  | cons q kvs ih =>
    intro k r hwf h
    obtain ⟨l, w⟩ := q
    simp only [wfK, Bool.and_eq_true] at hwf
    unfold lookupKey at h
    by_cases hl : l = k
    · rw [if_pos hl] at h
      cases h
      exact hwf.1
    · rw [if_neg hl] at h
      exact ih k r hwf.2 h

mutual

theorem pwfV : ∀ fuel input r, pVal fuel input = some r → wfV r.1 = true
  | 0, input, r => by intro h; simp [pVal] at h
  | fuel + 1, input, r => by
    intro h
    unfold pVal at h
    split at h
    · simp at h
    · split at h
      · rw [Option.map_eq_some'] at h
        obtain ⟨a, _, ha⟩ := h
        rw [← ha]
        rfl
      · split at h
        · exact pwfObjB fuel _ r h
        · split at h
          · exact pwfArrB fuel _ r h
          · split at h
            · rw [Option.map_eq_some'] at h
              obtain ⟨a, _, ha⟩ := h
              rw [← ha]
              rfl
            · split at h
              · rw [Option.map_eq_some'] at h
                obtain ⟨a, _, ha⟩ := h
                rw [← ha]
                rfl
              · split at h
                · rw [Option.map_eq_some'] at h
                  obtain ⟨a, _, ha⟩ := h
                  rw [← ha]
                  rfl
                · split at h
                  · rw [Option.map_eq_some'] at h
                    obtain ⟨a, _, ha⟩ := h
                    rw [← ha]
                    rfl
                  · simp at h

theorem pwfArrB : ∀ fuel input r, pArrBody fuel input = some r → wfV r.1 = true
  | 0, input, r => by intro h; simp [pArrBody] at h
  | fuel + 1, input, r => by
    intro h
    unfold pArrBody at h
    split at h
    · simp at h
    · split at h
      · cases h
        simp [wfV, wfL]
      · rw [Option.map_eq_some'] at h
        obtain ⟨a, ha, har⟩ := h
        rw [← har]
        exact pwfElems fuel _ a ha

theorem pwfElems : ∀ fuel input r, pElems fuel input = some r → wfL r.1 = true
  | 0, input, r => by intro h; simp [pElems] at h
  | fuel + 1, input, r => by
    intro h
    unfold pElems at h
    rw [Option.bind_eq_some] at h
    obtain ⟨vr, hvr, hrest⟩ := h
    have hwfv := pwfV fuel input vr hvr
    split at hrest
    · rw [Option.map_eq_some'] at hrest
      obtain ⟨er, her, hre⟩ := hrest
      rw [← hre]
      simp only [wfL, Bool.and_eq_true]
      exact ⟨hwfv, pwfElems fuel _ er her⟩
    · cases hrest
      simp [wfL, hwfv]
    · simp at hrest

theorem pwfObjB : ∀ fuel input r, pObjBody fuel input = some r → wfV r.1 = true
  | 0, input, r => by intro h; simp [pObjBody] at h
  | fuel + 1, input, r => by
    intro h
    unfold pObjBody at h
    split at h
    · simp at h
    · split at h
      · cases h
        simp [wfV, wfK, dupFree, keysOf]
      · rw [Option.map_eq_some'] at h
        obtain ⟨a, ha, har⟩ := h
        rw [← har]
        have hwfk := pwfMembers fuel _ a ha
        simp only [wfV, Bool.and_eq_true]
        exact ⟨dedupK_dupFree a.1, dedupK_wfK a.1 hwfk⟩

theorem pwfMembers : ∀ fuel input r, pMembers fuel input = some r → wfK r.1 = true
  | 0, input, r => by intro h; simp [pMembers] at h
  | fuel + 1, input, r => by
    intro h
    unfold pMembers at h
    split at h
    · rw [Option.bind_eq_some] at h
      obtain ⟨kr, hkr, hrest⟩ := h
      split at hrest
      · rw [Option.bind_eq_some] at hrest
        obtain ⟨vr, hvr, hrest2⟩ := hrest
        have hwfv := pwfV fuel _ vr hvr
        split at hrest2
        · rw [Option.map_eq_some'] at hrest2
          obtain ⟨mr, hmr, hre⟩ := hrest2
          rw [← hre]
          simp only [wfK, Bool.and_eq_true]
          exact ⟨hwfv, pwfMembers fuel _ mr hmr⟩
        · cases hrest2
          simp [wfK, hwfv]
        · simp at hrest2
      · simp at hrest
    · simp at h

end

theorem json_loads_wf (s : String) (v : PyVal) (h : json_loads s = some v) : wfV v = true := by
  unfold json_loads at h
  split at h
  next v2 rest heq =>
    split at h
    · cases h
      exact pwfV _ _ _ heq
    · simp at h
  next => simp at h

theorem lineResult_wf (line : String) (r : PyVal) (h : lineResult line = some r) :
    wfV r = true := by
  unfold lineResult at h
  split at h
  · rename_i kvs heq
    split at h
    · rename_i w hlook
      split at h
      · cases h
        have hwf := json_loads_wf line _ heq
        simp only [wfV, Bool.and_eq_true] at hwf
        exact wfK_lookup kvs "result" r hwf.2 hlook
      · simp at h
    · simp at h
  · simp at h

theorem firstResult_wf : ∀ (ls : List String) r, firstResult ls = some r → wfV r = true := by
  intro ls
  induction ls with
  | nil => intro r h; simp [firstResult] at h
  | cons l ls ih =>
    intro r h
    unfold firstResult at h
    split at h
    · cases h
      rename_i heq
      exact lineResult_wf l r heq
    · exact ih r h

theorem jsClose_wf (out : String) : wfV (jsClose out) = true := by
  unfold jsClose
  split
  · rename_i r heq
    exact firstResult_wf _ r heq
  · simp [wfV, wfK, dupFree, keysOf]

/-- Composition of the whole bridge on the success path: when the node
process runs the generated script to completion (exit code 0) over a
server stdout `out`, `call_mcp_tool` returns exactly the value the close
handler chose. -/
theorem call_on_node (name : String) (params : PyVal) (out : String)
    (hwf : wfV params = true) :
    call_mcp_tool name params (.completed 0 (nodeStdout out) "") = .ok (jsClose out) := by
  unfold call_mcp_tool call_mcp_tool_run json_dumps nodeStdout
  rw [if_pos hwf]
  simp only [reduceIte]
  rw [json_loads_stringify_nl (jsClose out) (jsClose_wf out)]

/-! ### Scanning facts used by the claims about the close handler -/

theorem firstResult_append_none : ∀ (pre : List String),
    (∀ l ∈ pre, lineResult l = none) →
    ∀ rest, firstResult (pre ++ rest) = firstResult rest := by
  intro pre
  induction pre with
  | nil => intro _ rest; rfl
  | cons l pre ih =>
    intro h rest
    show (match lineResult l with
      | some r => some r
      | none => firstResult (pre ++ rest)) = firstResult rest
    rw [h l (by simp)]
    exact ih (fun x hx => h x (by simp [hx])) rest

theorem firstResult_none : ∀ (ls : List String),
    (∀ l ∈ ls, lineResult l = none) → firstResult ls = none := by
  intro ls h
  have := firstResult_append_none ls h []
  simpa using this

theorem lookupKey_eq_none (kvs : List (String × PyVal)) (k : String)
    (h : kvs.any (fun p => p.1 == k) = false) : lookupKey kvs k = none := by
  induction kvs with
  | nil => rfl
  | cons q kvs ih =>
    obtain ⟨l, w⟩ := q
    simp only [List.any_cons, Bool.or_eq_false_iff, beq_eq_false_iff_ne] at h
    unfold lookupKey
    rw [if_neg h.1]
    exact ih (by simp [h.2])

theorem lineResult_none_of_no_key (l : String) (h : hasResultKey l = false) :
    lineResult l = none := by
  unfold hasResultKey at h
  unfold lineResult
  split
  · rename_i kvs heq
    rw [heq] at h
    rw [lookupKey_eq_none kvs "result" h]
  · rfl

theorem jsClose_no_result (out : String)
    (h : ∀ l ∈ jsLines out, hasResultKey l = false) :
    jsClose out = .obj [("error", .str "No valid response found"), ("raw_output", .str out)] := by
  unfold jsClose
  rw [firstResult_none _ (fun l hl => lineResult_none_of_no_key l (h l hl))]

theorem jsClose_no_truthy_result (out : String)
    (h : ∀ l ∈ jsLines out, lineResult l = none) :
    jsClose out = .obj [("error", .str "No valid response found"), ("raw_output", .str out)] := by
  unfold jsClose
  rw [firstResult_none _ h]

theorem headMatches_self_append : ∀ (p rest : List Char), headMatches p (p ++ rest) = true := by
  intro p
  induction p with
  | nil => intro rest; rfl
  | cons c cs ih => intro rest; simp [headMatches, ih]

theorem containsL_suffix : ∀ (a b : List Char), containsL b (a ++ b) = true := by
  intro a
  induction a with
  | nil =>
    intro b
    cases b with
    | nil => rfl
    | cons c cs =>
      show containsL (c :: cs) (c :: cs) = true
      unfold containsL
      have := headMatches_self_append (c :: cs) []
      simp only [List.append_nil] at this
      simp [this]
  | cons x a ih =>
    intro b
    show containsL b (x :: (a ++ b)) = true
    unfold containsL
    simp [ih b]

theorem strContains_suffix (a b : String) : strContains (a ++ b) b = true := by
  show containsL b.data ((a ++ b).data) = true
  have : (a ++ b).data = a.data ++ b.data := rfl
  rw [this]
  exact containsL_suffix a.data b.data

/-! ### The serializer emits no raw newline -/

theorem hexChar_ne_nl (n : Nat) : hexChar n ≠ '\x0a' := by
  unfold hexChar
  split <;> decide

theorem escChar_no_nl (c : Char) : '\x0a' ∉ escChar c := by
  unfold escChar
  split_ifs with h1 h2 h3 h4 h5 h6 h7 h8
  · decide
  · decide
  · decide
  · decide
  · decide
  · decide
  · decide
  · intro hm
    simp only [List.mem_cons, List.not_mem_nil, or_false] at hm
    rcases hm with h | h | h | h | h | h
    · exact absurd h (by decide)
    · exact absurd h (by decide)
    · exact absurd h (by decide)
    · exact absurd h (by decide)
    · exact hexChar_ne_nl (c.toNat / 16) h.symm
    · exact hexChar_ne_nl (c.toNat % 16) h.symm
  · intro hm
    simp only [List.mem_singleton] at hm
    subst hm
    exact h8 (by decide)

theorem escStr_no_nl : ∀ cs, '\x0a' ∉ escStr cs := by
  intro cs
  induction cs with
  | nil => simp [escStr]
  | cons c cs ih =>
    show '\x0a' ∉ escChar c ++ escStr cs
    rw [List.mem_append]
    rintro (h | h)
    · exact escChar_no_nl c h
    · exact ih h

theorem intChars_no_nl (n : Int) : '\x0a' ∉ intChars n := by
  unfold intChars
  by_cases hn : n < 0 <;> simp only [hn, if_true, if_false, reduceIte]
  · intro hm
    simp only [List.mem_cons] at hm
    rcases hm with h | h
    · exact absurd h (by decide)
    · have hd := natDigitsAux_mem _ _ _ h
      exact absurd hd (by decide)
  · intro hm
    have hd := natDigitsAux_mem _ _ _ hm
    exact absurd hd (by decide)

mutual

theorem stringifyV_no_nl : ∀ v, '\x0a' ∉ stringifyV v
  | .null => by decide
  | .bool b => by cases b <;> decide
  | .num n => intChars_no_nl n
  | .str s => by
    intro hm
    rcases List.mem_cons.mp hm with h | hm2
    · exact absurd h (by decide)
    · rcases List.mem_append.mp hm2 with h | h
      · exact escStr_no_nl s.data h
      · exact absurd h (by decide)
  | .arr xs => by
    intro hm
    rcases List.mem_cons.mp hm with h | hm2
    · exact absurd h (by decide)
    · rcases List.mem_append.mp hm2 with h | h
      · exact stringifyL_no_nl xs h
      · exact absurd h (by decide)
  | .obj kvs => by
    intro hm
    rcases List.mem_cons.mp hm with h | hm2
    · exact absurd h (by decide)
    · rcases List.mem_append.mp hm2 with h | h
      · exact stringifyK_no_nl kvs h
      · exact absurd h (by decide)
  | .pyobj i => by
    show '\x0a' ∉ ['n', 'u', 'l', 'l']
    decide

theorem stringifyL_no_nl : ∀ xs, '\x0a' ∉ stringifyL xs
  | [] => by decide
  | [x] => by
    show '\x0a' ∉ stringifyV x
    exact stringifyV_no_nl x
  | x :: y :: xs => by
    intro hm
    rcases List.mem_append.mp hm with h | hm2
    · exact stringifyV_no_nl x h
    · rcases List.mem_cons.mp hm2 with h | h
      · exact absurd h (by decide)
      · exact stringifyL_no_nl (y :: xs) h

theorem stringifyK_no_nl : ∀ kvs, '\x0a' ∉ stringifyK kvs
  | [] => by decide
  | [(k, v)] => by
    intro hm
    rcases List.mem_cons.mp hm with h | hm2
    · exact absurd h (by decide)
    · rcases List.mem_append.mp hm2 with h | hm3
      · exact escStr_no_nl k.data h
      · rcases List.mem_cons.mp hm3 with h | hm4
        · exact absurd h (by decide)
        · rcases List.mem_cons.mp hm4 with h | h
          · exact absurd h (by decide)
          · exact stringifyV_no_nl v h
  | (k, v) :: q :: kvs => by
    intro hm
    rcases List.mem_cons.mp hm with h | hm2
    · exact absurd h (by decide)
    · rcases List.mem_append.mp hm2 with hm3 | hm6
      · rcases List.mem_append.mp hm3 with h | hm4
        · exact escStr_no_nl k.data h
        · rcases List.mem_cons.mp hm4 with h | hm5
          · exact absurd h (by decide)
          · rcases List.mem_cons.mp hm5 with h | h
            · exact absurd h (by decide)
            · exact stringifyV_no_nl v h
      · rcases List.mem_cons.mp hm6 with h | h
        · exact absurd h (by decide)
        · exact stringifyK_no_nl (q :: kvs) h

end

/-- Any `tryExcept`-wrapped body returns normally. -/
theorem tryExcept_ok (b : Except PyExc String) (h : PyExc → String) :
    ∃ s, tryExcept b h = .ok s := by
  cases b with
  | ok s => exact ⟨s, rfl⟩
  | error e => exact ⟨h e, rfl⟩

/-! ### No-division-by-zero machinery -/

theorem noZD_ok {α : Type} (a : α) : NoZD (Except.ok a : Except PyExc α) :=
  fun h => Except.noConfusion h

theorem noZD_pure {α : Type} (a : α) : NoZD (pure a : Except PyExc α) :=
  fun h => Except.noConfusion h

theorem noZD_typeError {α : Type} (s : String) :
    NoZD (Except.error (PyExc.typeError s) : Except PyExc α) :=
  fun h => PyExc.noConfusion (Except.error.inj h)

theorem noZD_attrError {α : Type} (s : String) :
    NoZD (Except.error (PyExc.attrError s) : Except PyExc α) :=
  fun h => PyExc.noConfusion (Except.error.inj h)

theorem noZD_keyError {α : Type} (k : String) :
    NoZD (Except.error (PyExc.keyError k) : Except PyExc α) :=
  fun h => PyExc.noConfusion (Except.error.inj h)

theorem noZD_indexError {α : Type} (s : String) :
    NoZD (Except.error (PyExc.indexError s) : Except PyExc α) :=
  fun h => PyExc.noConfusion (Except.error.inj h)

theorem except_bind_ok {α β : Type} (a : α) (f : α → Except PyExc β) :
    (Except.ok a >>= f) = f a := rfl

theorem except_bind_error {α β : Type} (e : PyExc) (f : α → Except PyExc β) :
    ((Except.error e : Except PyExc α) >>= f) = .error e := rfl

theorem noZD_bind {α β : Type} {x : Except PyExc α} {f : α → Except PyExc β}
    (hx : NoZD x) (hf : ∀ a, x = .ok a → NoZD (f a)) : NoZD (x >>= f) := by
  cases x with
  | ok a =>
    rw [except_bind_ok]
    exact hf a rfl
  | error e =>
    rw [except_bind_error]
    intro hc
    exact hx (by rw [Except.error.inj hc])

theorem noZD_tryExcept (b : Except PyExc String) (h : PyExc → String) :
    NoZD (tryExcept b h) := by
  obtain ⟨s, hs⟩ := tryExcept_ok b h
  rw [hs]
  exact noZD_ok s

theorem noZD_pyLen (v : PyVal) : NoZD (pyLen v) := by
  cases v <;> first | exact noZD_ok _ | exact noZD_typeError _

theorem noZD_pyGetItem (d : PyVal) (k : String) : NoZD (pyGetItem d k) := by
  cases d with
  | obj kvs =>
    dsimp only [pyGetItem]
    cases lookupKey kvs k with
    | some v => exact noZD_ok _
    | none => exact noZD_keyError _
  | null => exact noZD_typeError _
  | bool b => exact noZD_typeError _
  | num n => exact noZD_typeError _
  | str s => exact noZD_typeError _
  | arr xs => exact noZD_typeError _
  | pyobj n => exact noZD_typeError _

theorem noZD_pyIndex0 (v : PyVal) : NoZD (pyIndex0 v) := by
  cases v with
  | arr xs =>
    cases xs with
    | nil => exact noZD_indexError _
    | cons x xs => exact noZD_ok _
  | str s =>
    dsimp only [pyIndex0]
    cases s.data with
    | nil => exact noZD_indexError _
    | cons c cs => exact noZD_ok _
  | obj kvs =>
    dsimp only [pyIndex0]
    cases lookupKey kvs "0" with
    | some w => exact noZD_ok _
    | none => exact noZD_keyError _
  | null => exact noZD_typeError _
  | bool b => exact noZD_typeError _
  | num n => exact noZD_typeError _
  | pyobj n => exact noZD_typeError _

theorem noZD_pyGetD (d : PyVal) (k : String) (dm : Except PyExc PyVal)
    (hdm : NoZD dm) : NoZD (pyGetD d k dm) := by
  cases d <;>
    first
    | exact noZD_bind hdm (fun df _ => noZD_pure _)
    | exact noZD_attrError _

theorem noZD_pyGet (d : PyVal) (k : String) (df : PyVal) : NoZD (pyGet d k df) :=
  noZD_pyGetD d k (pure df) (noZD_pure df)

theorem noZD_pyInStr (s : String) (v : PyVal) : NoZD (pyInStr s v) := by
  cases v <;> first | exact noZD_ok _ | exact noZD_typeError _

theorem noZD_pyIter (v : PyVal) : NoZD (pyIter v) := by
  cases v <;> first | exact noZD_ok _ | exact noZD_typeError _

theorem noZD_pySlice (v : PyVal) (n : Nat) : NoZD (pySlice v n) := by
  cases v <;> first | exact noZD_ok _ | exact noZD_typeError _

theorem noZD_pyTitle (v : PyVal) : NoZD (pyTitle v) := by
  cases v <;> first | exact noZD_ok _ | exact noZD_attrError _

theorem noZD_pyReplaceTitle (v : PyVal) : NoZD (pyReplaceTitle v) := by
  cases v <;> first | exact noZD_ok _ | exact noZD_attrError _

theorem noZD_pyJsonLoadsV (v : PyVal) : NoZD (pyJsonLoadsV v) := by
  cases v <;> first | exact noZD_ok _ | exact noZD_typeError _

theorem noZD_bumpCount (c : List (PyVal × Nat)) (k : PyVal) : NoZD (bumpCount c k) := by
  unfold bumpCount
  split
  · exact noZD_ok _
  · exact noZD_typeError _

theorem noZD_call_mcp_tool (n : String) (params : PyVal) (run : RunOutcome) :
    NoZD (call_mcp_tool n params run) := by
  unfold call_mcp_tool call_mcp_tool_run
  cases hjd : json_dumps params with
  | error e =>
    have he : e = .typeError "Object of type object is not JSON serializable" := by
      unfold json_dumps at hjd
      split at hjd
      · exact Except.noConfusion hjd
      · exact (Except.error.inj hjd).symm
    subst he
    exact noZD_typeError _
  | ok s =>
    cases run with
    | completed code out err =>
      dsimp only
      split
      all_goals first
        | exact noZD_ok _
        | (split <;> exact noZD_ok _)
    | timeoutExpired => exact noZD_ok _
    | raised msg => exact noZD_ok _

theorem pyLen_pos (v : PyVal) (n : Nat) (ht : pyTruthy v = true)
    (hl : pyLen v = .ok n) : n ≠ 0 := by
  cases v with
  | str s =>
    obtain ⟨l⟩ := s
    simp [pyTruthy] at ht
    simp [pyLen, String.length] at hl
    intro h0
    apply ht
    have : l = [] := List.length_eq_zero.mp (by omega)
    rw [this]
  | arr xs =>
    simp [pyTruthy] at ht
    simp [pyLen] at hl
    intro h0
    exact ht (List.length_eq_zero.mp (by omega))
  | obj kvs =>
    simp [pyTruthy] at ht
    simp [pyLen] at hl
    intro h0
    exact ht (List.length_eq_zero.mp (by omega))
  | null => simp [pyTruthy] at ht
  | bool b => simp [pyLen] at hl
  | num m => simp [pyLen] at hl
  | pyobj m => simp [pyLen] at hl

theorem noZD_overviewPct (items : PyVal) (count : Nat) : NoZD (overviewPct items count) := by
  unfold overviewPct
  by_cases ht : pyTruthy items = true
  · rw [if_pos ht]
    apply noZD_bind (noZD_pyLen items)
    intro n hn
    rw [if_neg (pyLen_pos items n ht hn)]
    exact noZD_ok _
  · rw [if_neg ht]
    exact noZD_ok _

theorem noZD_workloadPct (u t : Nat) (h : t ≠ 0) : NoZD (workloadPct u t) := by
  unfold workloadPct
  rw [if_neg h]
  exact noZD_ok _

theorem noZD_overviewStatusLine (items st : PyVal) (count : Nat) :
    NoZD (overviewStatusLine items st count) := by
  unfold overviewStatusLine
  exact noZD_bind (noZD_overviewPct items count)
    (fun pct _ => noZD_bind (noZD_pyReplaceTitle st) (fun s _ => noZD_pure _))

theorem noZD_overviewPriorityLine (items pr : PyVal) (count : Nat) :
    NoZD (overviewPriorityLine items pr count) := by
  unfold overviewPriorityLine
  exact noZD_bind (noZD_overviewPct items count)
    (fun pct _ => noZD_bind (noZD_pyTitle pr) (fun s _ => noZD_pure _))

theorem noZD_pyLtM (a b : PyVal) : NoZD (pyLtM a b) := by
  cases a <;> cases b <;> first | exact noZD_ok _ | exact noZD_typeError _

theorem noZD_ltPairM (p q : PyVal × Nat) : NoZD (ltPairM p q) := by
  unfold ltPairM
  split
  · exact noZD_ok _
  · exact noZD_pyLtM p.1 q.1

theorem noZD_insertLtM (lt : PyVal × Nat → PyVal × Nat → Except PyExc Bool)
    (hlt : ∀ p q, NoZD (lt p q)) (x : PyVal × Nat) :
    ∀ l, NoZD (insertLtM lt x l) := by
  intro l
  induction l with
  | nil => exact noZD_ok _
  | cons y ys ih =>
    apply noZD_bind (hlt x y)
    intro b _
    cases b with
    | true => exact noZD_ok _
    | false => exact noZD_bind ih (fun tl _ => noZD_ok _)

theorem noZD_sortPairsM (lt : PyVal × Nat → PyVal × Nat → Except PyExc Bool)
    (hlt : ∀ p q, NoZD (lt p q)) (l : List (PyVal × Nat)) :
    NoZD (sortPairsM lt l) := by
  unfold sortPairsM
  have hstep : ∀ (acc : List (PyVal × Nat)) (xs : List (PyVal × Nat)),
      NoZD (List.foldlM (fun acc x => insertLtM lt x acc) acc xs) := by
    intro acc xs
    induction xs generalizing acc with
    | nil => exact noZD_pure _
    | cons x rest ih =>
      exact noZD_bind (noZD_insertLtM lt hlt x acc) (fun b _ => ih b)
  exact hstep [] l

theorem noZD_foldlM {α β : Type} (f : β → α → Except PyExc β) (l : List α)
    (hf : ∀ b a, NoZD (f b a)) : ∀ init, NoZD (List.foldlM f init l) := by
  induction l with
  | nil => intro init; exact noZD_pure _
  | cons x xs ih =>
    intro init
    exact noZD_bind (hf init x) (fun b _ => ih b)

theorem noZD_mapM_loop {α β : Type} (f : α → Except PyExc β) (l : List α)
    (hf : ∀ a, NoZD (f a)) : ∀ acc, NoZD (List.mapM.loop f l acc) := by
  induction l with
  | nil => intro acc; exact noZD_pure _
  | cons x xs ih =>
    intro acc
    exact noZD_bind (hf x) (fun b _ => ih (b :: acc))

theorem noZD_mapM {α β : Type} (f : α → Except PyExc β) (l : List α)
    (hf : ∀ a, NoZD (f a)) : NoZD (l.mapM f) :=
  noZD_mapM_loop f l hf []

theorem noZD_filterAuxM {α : Type} (p : α → Except PyExc Bool)
    (hp : ∀ a, NoZD (p a)) : ∀ (l acc : List α), NoZD (List.filterAuxM p l acc) := by
  intro l
  induction l with
  | nil => intro acc; exact noZD_pure _
  | cons x xs ih =>
    intro acc
    exact noZD_bind (hp x) (fun b _ => ih _)

theorem noZD_filterM {α : Type} (p : α → Except PyExc Bool) (l : List α)
    (hp : ∀ a, NoZD (p a)) : NoZD (l.filterM p) := by
  unfold List.filterM
  exact noZD_bind (noZD_filterAuxM p hp l []) (fun r _ => noZD_pure _)

theorem noZD_switch_project (p : String) (run : RunOutcome) :
    NoZD (switch_project p run) :=
  noZD_tryExcept _ _

theorem noZD_overview_body (pn : Option String) (run : RunOutcome) :
    NoZD (get_simple_task_overview_body pn run) := by
  unfold get_simple_task_overview_body
  apply noZD_bind (noZD_call_mcp_tool _ _ _)
  intro summary_data _
  apply noZD_bind (noZD_pyInStr _ _)
  intro hasErr _
  split
  · apply noZD_bind (noZD_pyGetItem _ _)
    intro ev _
    exact noZD_pure _
  · apply noZD_bind (noZD_pyInStr _ _)
    intro hasContent _
    dsimp only
    split
    all_goals
      first
        | (apply noZD_bind (noZD_pyGetItem _ _)
           intro cv _
           apply noZD_bind (noZD_pyLen _)
           intro n _
           apply noZD_bind (noZD_pure _)
           intro y _)
        | (apply noZD_bind (noZD_pure _)
           intro y _)
    all_goals
      split
      · apply noZD_bind (noZD_pyGetItem _ _)
        intro cv2 _
        apply noZD_bind (noZD_pyIndex0 _)
        intro c0 _
        apply noZD_bind (noZD_pyGet _ _ _)
        intro contentV _
        apply noZD_bind (noZD_pyJsonLoadsV _)
        intro r _
        cases r with
        | none =>
          apply noZD_bind (noZD_pySlice _ _)
          intro sl _
          exact noZD_pure _
        | some task_data =>
          apply noZD_bind (noZD_pyGet _ _ _)
          intro items _
          apply noZD_bind
            (noZD_pyGetD _ _ _ (noZD_bind (noZD_pyLen _) (fun n2 _ => noZD_pure _)))
          intro total _
          apply noZD_bind (noZD_pyIter _)
          intro tasks _
          apply noZD_bind (noZD_foldlM _ _ (fun acc task =>
            noZD_bind (noZD_pyGet _ _ _) (fun st _ =>
            noZD_bind (noZD_pyGet _ _ _) (fun pr _ =>
            noZD_bind (noZD_bumpCount _ _) (fun sc _ =>
            noZD_bind (noZD_bumpCount _ _) (fun pc _ => noZD_pure _))))) _)
          intro counts _
          apply noZD_bind (noZD_sortPairsM _ noZD_ltPairM _)
          intro sortedStatus _
          apply noZD_bind (noZD_mapM _ _ (fun p => noZD_overviewStatusLine _ _ _))
          intro statusLines _
          apply noZD_bind (noZD_sortPairsM _ noZD_ltPairM _)
          intro sortedPriority _
          apply noZD_bind (noZD_mapM _ _ (fun p => noZD_overviewPriorityLine _ _ _))
          intro priLines _
          apply noZD_bind (noZD_filterM _ _ (fun t =>
            noZD_bind (noZD_pyGet _ _ _) (fun p _ => noZD_pure _)))
          intro hp _
          split
          · apply noZD_bind (noZD_pure _)
            intro y2 _
            exact noZD_pure _
          · apply noZD_bind (noZD_mapM _ _ (fun task =>
              noZD_bind (noZD_pyGet _ _ _) (fun st _ =>
              noZD_bind (noZD_pyReplaceTitle _) (fun badge _ =>
              noZD_bind (noZD_pyGet _ _ _) (fun title _ => noZD_pure _)))))
            intro hpLines _
            apply noZD_bind (noZD_pure _)
            intro y2 _
            exact noZD_pure _
      · exact noZD_pure _

theorem noZD_workloadMain (run : RunOutcome) : NoZD (workloadMain run) := by
  unfold workloadMain
  apply noZD_bind (noZD_call_mcp_tool _ _ _)
  intro tasks_data _
  apply noZD_bind (noZD_pyInStr _ _)
  intro hasErr _
  split
  · apply noZD_bind (noZD_pyGetItem _ _)
    intro ev _
    exact noZD_pure _
  · apply noZD_bind (noZD_pyGet _ _ _)
    intro items _
    split
    · exact noZD_pure _
    · rename_i hti
      apply noZD_bind (noZD_pyLen _)
      intro total_tasks hlen
      have htt : total_tasks ≠ 0 := by
        have ht2 : pyTruthy items = true := by
          cases h : pyTruthy items with
          | false => exact absurd (by simp [h]) hti
          | true => rfl
        exact pyLen_pos items total_tasks ht2 hlen
      apply noZD_bind (noZD_pyIter _)
      intro tasks _
      apply noZD_bind (noZD_foldlM _ _ ?hwf _)
      case hwf =>
        intro acc task
        apply noZD_bind (noZD_pyGet _ _ _)
        intro asg _
        dsimp only
        split
        · exact noZD_pure _
        · split
          · apply noZD_bind (noZD_pure _)
            intro wl _
            apply noZD_bind (noZD_pyGet _ _ _)
            intro pr _
            apply noZD_bind (noZD_pyGet _ _ _)
            intro stv _
            split
            · apply noZD_bind (noZD_pure _)
              intro hasSt _
              exact noZD_pure _
            · apply noZD_bind (noZD_typeError _)
              intro _ hcon
              exact Except.noConfusion hcon
          · apply noZD_bind (noZD_typeError _)
            intro _ hcon
            exact Except.noConfusion hcon
      intro st _
      apply noZD_bind (noZD_workloadPct _ _ htt)
      intro pct _
      apply noZD_bind (noZD_mapM _ _ ?hsecs)
      case hsecs =>
        intro ml
        apply noZD_bind (noZD_pyInStr _ _)
        intro hasAt _
        dsimp only
        split
        · split
          · apply noZD_bind (noZD_pure _)
            intro display _
            exact noZD_pure _
          · apply noZD_bind (noZD_attrError _)
            intro _ hcon
            exact Except.noConfusion hcon
        · apply noZD_bind (noZD_pure _)
          intro display _
          exact noZD_pure _
      intro sections _
      exact noZD_pure _

theorem noZD_workload_body (pn : Option String) (r1 r2 : RunOutcome) :
    NoZD (analyze_team_workload_body pn r1 r2) := by
  unfold analyze_team_workload_body
  split
  · apply noZD_bind (noZD_switch_project _ _)
    intro sw _
    split
    · exact noZD_pure _
    · exact noZD_workloadMain r2
  · exact noZD_workloadMain r2

/-! ### Claim theorems -/

/-- C1 (counterexample): the close handler tests `if (parsed.result)` — JS
truthiness — not presence of a `result` key.  With server stdout
consisting of the two lines `\x7b"result": false\x7d` and
`\x7b"result": true\x7d`, both of which parse as JSON and carry a `result`
key (third conjunct shows it for the first line), the call returns the
SECOND line's result `true`, not the first line's `false` as the claim
requires. -/
theorem c1_counterexample :
    call_mcp_tool "simpletask_get_tasks" (PyVal.obj [])
      (.completed 0 (nodeStdout "\x7b\"result\": false\x7d\x0a\x7b\"result\": true\x7d") "") =
      .ok (.bool true) ∧
    (PyVal.bool true ≠ PyVal.bool false) ∧
    hasResultKey "\x7b\"result\": false\x7d" = true := by
  refine ⟨by decide, by decide, by decide⟩

/-- C1 (amended): when the child process exits normally, the captured
stdout is split into lines and scanned in order, and for the first line
that parses as JSON and carries a **truthy** `result` value (the code
tests JS truthiness, so `null`, `false`, `0` and `""` results are
skipped), the call returns that line's result value — regardless of
non-JSON log lines interleaved before or after it, and of any later
result-bearing lines. -/
theorem c1_first_truthy_result_wins (name : String) (params : PyVal) (out : String)
    (pre post : List String) (line : String) (r : PyVal)
    (hparams : Serializable params)
    (hlines : jsLines out = pre ++ line :: post)
    (hpre : ∀ l ∈ pre, lineResult l = none)
    (hline : lineResult line = some r) :
    call_mcp_tool name params (.completed 0 (nodeStdout out) "") = .ok r := by
  rw [call_on_node name params out hparams]
  congr 1
  unfold jsClose
  rw [hlines, firstResult_append_none pre hpre (line :: post)]
  unfold firstResult
  rw [hline]

/-- C1 (witness): a log line, then a truthy result line, then another
result line — the first truthy result is returned. -/
theorem c1_witness :
    call_mcp_tool "simpletask_get_tasks" (PyVal.obj [])
      (.completed 0
        (nodeStdout "starting\x0a\x7b\"result\": \x7b\"ok\": true\x7d\x7d\x0a\x7b\"result\": 2\x7d")
        "") =
      .ok (.obj [("ok", .bool true)]) :=
  c1_first_truthy_result_wins "simpletask_get_tasks" (PyVal.obj [])
    "starting\x0a\x7b\"result\": \x7b\"ok\": true\x7d\x7d\x0a\x7b\"result\": 2\x7d"
    ["starting"] ["\x7b\"result\": 2\x7d"] "\x7b\"result\": \x7b\"ok\": true\x7d\x7d"
    (.obj [("ok", .bool true)]) (by decide) (by decide) (by decide) (by decide)

/-- C2: when the spawned process exits with a non-zero code,
`call_mcp_tool` returns an error dictionary whose message carries the
captured stderr text (second conjunct: the stderr text occurs in the
message) together with the exit code under `return_code` — and the result
does not depend on stdout at all: the right-hand side mentions `err` and
`code` but not `out`, so no JSON scan of stdout takes place. -/
theorem c2_nonzero_exit (name : String) (params : PyVal) (code : Int) (out err : String)
    (hparams : Serializable params) (hcode : code ≠ 0) :
    call_mcp_tool name params (.completed code out err) =
      .ok (.obj [("error", .str ("MCP call failed: " ++ err)), ("return_code", .num code)]) ∧
    strContains ("MCP call failed: " ++ err) err = true := by
  constructor
  · have hw : wfV params = true := hparams
    unfold call_mcp_tool call_mcp_tool_run json_dumps
    rw [if_pos hw]
    simp [hcode]
  · exact strContains_suffix "MCP call failed: " err

/-- C2 (witness): exit code 1 with stderr `boom`. -/
theorem c2_witness :
    call_mcp_tool "simpletask_get_tasks" (PyVal.obj []) (.completed 1 "\x7b\"result\": 5\x7d" "boom") =
      .ok (.obj [("error", .str "MCP call failed: boom"), ("return_code", .num 1)]) ∧
    strContains "MCP call failed: boom" "boom" = true :=
  c2_nonzero_exit "simpletask_get_tasks" (PyVal.obj []) 1 "\x7b\"result\": 5\x7d" "boom"
    (by decide) (by decide)

/-- C4 (evaluation at the failing input): when `subprocess.run` raises
`TimeoutExpired`, `call_mcp_tool` returns the timeout error dictionary
WITHOUT executing `os.unlink(script_path)` (cleanup flag `false`), and the
same happens on any other exception path — while on normal completion the
unlink does run (flag `true`).  This contradicts the claim that the temp
script is removed on every exit path. -/
theorem c4_timeout_skips_unlink :
    call_mcp_tool_run "simpletask_get_tasks" (.obj [("limit", .num 100)]) .timeoutExpired =
      (.ok (.obj [("error", .str "MCP call timed out")]), false) ∧
    (call_mcp_tool_run "simpletask_get_tasks" (.obj [("limit", .num 100)])
        (.raised "FileNotFoundError")).2 = false ∧
    (call_mcp_tool_run "simpletask_get_tasks" (.obj [("limit", .num 100)])
        (.completed 0 "null" "")).2 = true ∧
    (call_mcp_tool_run "simpletask_get_tasks" (.obj [("limit", .num 100)])
        (.completed 1 "" "boom")).2 = true := by
  refine ⟨by decide, by decide, by decide, by decide⟩

/-- C5 (counterexample): when no stdout line qualifies, the error message
the code produces is `No valid response found` — not `no result found` as
the claim states. -/
theorem c5_counterexample :
    call_mcp_tool "simpletask_get_tasks" (PyVal.obj [])
      (.completed 0 (nodeStdout "hello") "") =
      .ok (.obj [("error", .str "No valid response found"), ("raw_output", .str "hello")]) ∧
    ("No valid response found" : String) ≠ "no result found" := by
  refine ⟨by decide, by decide⟩

/-- C5 (amended): when the child exits normally and no stdout line both
parses as JSON and carries a truthy `result` value (`lineResult l = none`
for every line, which covers non-JSON log lines, JSON lines without a
`result` key, and JSON lines whose `result` is falsy, such as
`\x7b"result": false\x7d`), the call returns the error dictionary with
message `No valid response found` whose `raw_output` payload is the full
captured stdout text verbatim. -/
theorem c5_no_result_error (name : String) (params : PyVal) (out : String)
    (hparams : Serializable params)
    (h : ∀ l ∈ jsLines out, lineResult l = none) :
    call_mcp_tool name params (.completed 0 (nodeStdout out) "") =
      .ok (.obj [("error", .str "No valid response found"), ("raw_output", .str out)]) := by
  rw [call_on_node name params out hparams, jsClose_no_truthy_result out h]

/-- C5 (witness): a non-JSON log line followed by a JSON line whose
`result` is falsy — the scan skips both and the error dictionary carries
the whole stdout text. -/
theorem c5_witness :
    call_mcp_tool "simpletask_get_tasks" (PyVal.obj [])
      (.completed 0 (nodeStdout "log line\x0a\x7b\"result\": false\x7d") "") =
      .ok (.obj [("error", .str "No valid response found"),
                 ("raw_output", .str "log line\x0a\x7b\"result\": false\x7d")]) :=
  c5_no_result_error "simpletask_get_tasks" (PyVal.obj [])
    "log line\x0a\x7b\"result\": false\x7d" (by decide) (by decide)

/-- C7 (counterexample): the generated script interpolates the tool name
raw into a single-quoted JS literal, so a tool name containing a quote
character produces an invalid script: node exits with a `SyntaxError`
before spawning the server, and nothing is written to any child's stdin —
against the claim's promise for every tool name. -/
theorem c7_counterexample :
    childStdin "x\x27y" (.obj []) = none ∧ jsSafeName "x\x27y" = false := by
  refine ⟨by decide, by decide⟩

/-- C7 (amended): for every tool name free of quote, backslash and line
breaks, and every JSON-serializable arguments mapping, the generated
script writes to the spawned server's stdin exactly one newline-terminated
JSON line — the envelope
`\x7b"jsonrpc":"2.0","id":1,"method":"tools/call","params":\x7b"name":…,"arguments":…\x7d\x7d`
— and then closes the stream (second conjunct: the payload contains
exactly one newline, at its end); parsing that line back, as a stub child
would, recovers the envelope, and the `arguments` member of its `params`
is structurally identical to the input mapping. -/
theorem c7_request_line (name : String) (args : PyVal) (hname : jsSafeName name = true)
    (hargs : Serializable args) :
    childStdin name args = some (stringify (buildRequest name args) ++ "\x0a") ∧
    (stringify (buildRequest name args) ++ "\x0a").data.count '\x0a' = 1 ∧
    json_loads (stringify (buildRequest name args) ++ "\x0a") = some (buildRequest name args) ∧
    (match json_loads (stringify (buildRequest name args) ++ "\x0a") with
      | some (.obj kvs) =>
        (match lookupKey kvs "params" with
          | some (.obj ps) => lookupKey ps "arguments" = some args
          | _ => False)
      | _ => False) := by
  have hw : wfV args = true := hargs
  have hwfreq : wfV (buildRequest name args) = true := by
    simp [buildRequest, wfV, wfK, dupFree, keysOf, hw]
  have hround : json_loads (stringify (buildRequest name args) ++ "\x0a") =
      some (buildRequest name args) := json_loads_stringify_nl _ hwfreq
  refine ⟨?_, ?_, hround, ?_⟩
  · unfold childStdin
    rw [hname, hw]
    rfl
  · show (stringifyV (buildRequest name args) ++ ['\x0a']).count '\x0a' = 1
    rw [List.count_append]
    rw [List.count_eq_zero.mpr (stringifyV_no_nl (buildRequest name args))]
    rfl
  · rw [hround]
    simp [buildRequest, lookupKey]

/-- C7 (witness): the specification's example arguments
`\x7b"a": 1, "b": [true, null]\x7d` with tool name `get_overview`. -/
theorem c7_witness :
    childStdin "get_overview" (.obj [("a", .num 1), ("b", .arr [.bool true, .null])]) =
      some (stringify (buildRequest "get_overview"
        (.obj [("a", .num 1), ("b", .arr [.bool true, .null])])) ++ "\x0a") ∧
    (stringify (buildRequest "get_overview"
        (.obj [("a", .num 1), ("b", .arr [.bool true, .null])])) ++ "\x0a").data.count '\x0a' = 1 ∧
    json_loads (stringify (buildRequest "get_overview"
        (.obj [("a", .num 1), ("b", .arr [.bool true, .null])])) ++ "\x0a") =
      some (buildRequest "get_overview" (.obj [("a", .num 1), ("b", .arr [.bool true, .null])])) ∧
    (match json_loads (stringify (buildRequest "get_overview"
        (.obj [("a", .num 1), ("b", .arr [.bool true, .null])])) ++ "\x0a") with
      | some (.obj kvs) =>
        (match lookupKey kvs "params" with
          | some (.obj ps) =>
            lookupKey ps "arguments" = some (.obj [("a", .num 1), ("b", .arr [.bool true, .null])])
          | _ => False)
      | _ => False) :=
  c7_request_line "get_overview" (.obj [("a", .num 1), ("b", .arr [.bool true, .null])])
    (by decide) (by decide)

/-- C9 (counterexample): `json.dumps(params)` runs inside the f-string that
builds the script (line 42), BEFORE the `try:` on line 79 — so a
non-JSON-serializable params mapping makes `call_mcp_tool` propagate a
`TypeError` to its caller instead of returning an error dictionary. -/
theorem c9_counterexample :
    call_mcp_tool "simpletask_get_tasks" (.obj [("callback", .pyobj 0)]) .timeoutExpired =
      .error (.typeError "Object of type object is not JSON serializable") := by
  decide

/-- C9 (amended): for every tool name and every JSON-serializable params
mapping, `call_mcp_tool` never propagates an exception: it returns some
value on every outcome, and on each failure path — timeout, other raised
exception (e.g. launch failure), non-zero exit, stdout that does not parse
as JSON — that value is a dictionary carrying an `error` key with a string
message. -/
theorem c9_error_mapping (name : String) (params : PyVal) (run : RunOutcome)
    (hparams : Serializable params) :
    (∃ v, call_mcp_tool name params run = .ok v) ∧
    (call_mcp_tool name params .timeoutExpired =
      .ok (.obj [("error", .str "MCP call timed out")])) ∧
    (∀ msg, call_mcp_tool name params (.raised msg) =
      .ok (.obj [("error", .str ("Unexpected error: " ++ msg))])) ∧
    (∀ code out err, code ≠ 0 → call_mcp_tool name params (.completed code out err) =
      .ok (.obj [("error", .str ("MCP call failed: " ++ err)), ("return_code", .num code)])) ∧
    (∀ out err, json_loads out = none → call_mcp_tool name params (.completed 0 out err) =
      .ok (.obj [("error", .str "Failed to parse MCP response"), ("raw_output", .str out)])) := by
  have hw : wfV params = true := hparams
  refine ⟨?_, ?_, ?_, ?_, ?_⟩
  · cases run with
    | completed code out err =>
      unfold call_mcp_tool call_mcp_tool_run json_dumps
      rw [if_pos hw]
      by_cases hc : code = 0
      · subst hc
        cases hjl : json_loads out with
        | some v => exact ⟨v, by simp [hjl]⟩
        | none =>
          exact ⟨.obj [("error", .str "Failed to parse MCP response"), ("raw_output", .str out)],
            by simp [hjl]⟩
      · exact ⟨.obj [("error", .str ("MCP call failed: " ++ err)), ("return_code", .num code)],
          by simp [hc]⟩
    | timeoutExpired =>
      refine ⟨.obj [("error", .str "MCP call timed out")], ?_⟩
      unfold call_mcp_tool call_mcp_tool_run json_dumps
      rw [if_pos hw]
    | raised msg =>
      refine ⟨.obj [("error", .str ("Unexpected error: " ++ msg))], ?_⟩
      unfold call_mcp_tool call_mcp_tool_run json_dumps
      rw [if_pos hw]
  · unfold call_mcp_tool call_mcp_tool_run json_dumps
    rw [if_pos hw]
  · intro msg
    unfold call_mcp_tool call_mcp_tool_run json_dumps
    rw [if_pos hw]
  · intro code out err hc
    unfold call_mcp_tool call_mcp_tool_run json_dumps
    rw [if_pos hw]
    simp [hc]
  · intro out err hjl
    unfold call_mcp_tool call_mcp_tool_run json_dumps
    rw [if_pos hw]
    simp [hjl]

/-- C9 (witness): the amended claim at a concrete serializable params
mapping, shown on the timeout outcome. -/
theorem c9_witness :
    (∃ v, call_mcp_tool "simpletask_get_tasks" (.obj [("limit", .num 100)]) .timeoutExpired =
      .ok v) ∧
    (call_mcp_tool "simpletask_get_tasks" (.obj [("limit", .num 100)]) .timeoutExpired =
      .ok (.obj [("error", .str "MCP call timed out")])) ∧
    (∀ msg, call_mcp_tool "simpletask_get_tasks" (.obj [("limit", .num 100)]) (.raised msg) =
      .ok (.obj [("error", .str ("Unexpected error: " ++ msg))])) ∧
    (∀ code out err, code ≠ 0 →
      call_mcp_tool "simpletask_get_tasks" (.obj [("limit", .num 100)]) (.completed code out err) =
      .ok (.obj [("error", .str ("MCP call failed: " ++ err)), ("return_code", .num code)])) ∧
    (∀ out err, json_loads out = none →
      call_mcp_tool "simpletask_get_tasks" (.obj [("limit", .num 100)]) (.completed 0 out err) =
      .ok (.obj [("error", .str "Failed to parse MCP response"), ("raw_output", .str out)])) :=
  c9_error_mapping "simpletask_get_tasks" (.obj [("limit", .num 100)]) .timeoutExpired (by decide)

/-- C8 (evaluation at the failing input): on the specification\x27s
end-to-end scenario — stub child echoing the JSON-RPC response whose
content text decodes to `\x7b"items":[],"total_count":0\x7d` — the
formatter returns the single string `c8Out`.  It does report
`**Total Tasks**: 0` (second conjunct) and starts with the characters
`# Simple Task Overview` (third conjunct), but because the source joins
with the two-character literal backslash-`n` (`"\x5c\x5cn".join`), the
whole output is ONE physical line (fourth conjunct: splitting on real
newlines returns the string itself as the only line), and that line is
not `# Simple Task Overview` (fifth conjunct) — the output does NOT begin
with a literal line `# Simple Task Overview` as the claim requires. -/
theorem c8_scenario :
    get_simple_task_overview none (.completed 0 (nodeStdout c8Stub) "") = .ok c8Out ∧
    strContains c8Out "**Total Tasks**: 0" = true ∧
    headMatches "# Simple Task Overview".data c8Out.data = true ∧
    splitNl c8Out.data = [c8Out.data] ∧
    c8Out ≠ "# Simple Task Overview" := by
  refine ⟨by decide, by decide, by decide, by decide, by decide⟩

/-- C6: each of the seven exposed tool functions takes zero or one string
argument (modelled as the optional/required string parameters below, the
extra `RunOutcome` parameters being the environment\x27s process
outcomes, not caller arguments) and returns normally with a string on
every input and every bridge outcome: the `except Exception` wrapper in
each function converts every raised exception into an apologetic error
string, so no exception escapes. -/
theorem c6_tools_return_strings :
    (∀ pn run, ∃ s, get_simple_task_overview pn run = .ok s) ∧
    (∀ pn run, ∃ s, get_blocked_tasks pn run = .ok s) ∧
    (∀ pn run, ∃ s, get_high_priority_tasks pn run = .ok s) ∧
    (∀ pn r1 r2, ∃ s, analyze_team_workload pn r1 r2 = .ok s) ∧
    (∀ q pn r1 r2, ∃ s, search_tasks q pn r1 r2 = .ok s) ∧
    (∀ pn r1 r2 r3, ∃ s, get_project_info pn r1 r2 r3 = .ok s) ∧
    (∀ p run, ∃ s, switch_project p run = .ok s) := by
  refine ⟨?_, ?_, ?_, ?_, ?_, ?_, ?_⟩
  · intro pn run; exact tryExcept_ok _ _
  · intro pn run; exact tryExcept_ok _ _
  · intro pn run; exact tryExcept_ok _ _
  · intro pn r1 r2; exact tryExcept_ok _ _
  · intro q pn r1 r2; exact tryExcept_ok _ _
  · intro pn r1 r2 r3; exact tryExcept_ok _ _
  · intro p run; exact tryExcept_ok _ _

/-- C10: no percentage computation divides by zero.  The body of
`get_simple_task_overview` never raises `ZeroDivisionError` on any input
and any bridge outcome — each division by `len(items)` sits under the
`if items` guard, and the percentage expression evaluates to 0 whenever
`items` is empty or falsy (fourth conjunct shows the empty-list case;
third conjunct shows the guarded percentage never divides by zero for ANY
value of `items`).  Likewise the body of `analyze_team_workload` never
raises `ZeroDivisionError`: its division by `total_tasks` is reached only
past the early return on falsy `items`, which forces
`total_tasks = len(items) > 0`. -/
theorem c10_no_division_by_zero :
    (∀ pn run, NoZD (get_simple_task_overview_body pn run)) ∧
    (∀ pn runSwitch runTasks, NoZD (analyze_team_workload_body pn runSwitch runTasks)) ∧
    (∀ items count, NoZD (overviewPct items count)) ∧
    (∀ count, overviewPct (.arr []) count = .ok 0) :=
  ⟨noZD_overview_body, noZD_workload_body, noZD_overviewPct, fun _ => rfl⟩

end SimpleTaskMcp
